import Mathlib

/-!
Verification development for the résumé-parsing core of this repository
(`fixed_resume_parser.py`).  The Python source is shallowly embedded:
strings are processed with `List Char` primitives that model the exact
semantics of the `str` operations used by the source, and every regular
expression of the source is transcribed into a small `Re` syntax executed
by a backtracking engine with Python `re` semantics (leftmost match,
ordered alternation, greedy and lazy quantifiers, capturing groups,
IGNORECASE, DOTALL, word boundaries, lookahead).
-/

namespace ResumeCore

/-! ### Python string primitives -/

/-- The apostrophe character, written via its code point. -/
def apoC : Char := Char.ofNat 39

/-- Python `str` whitespace (ASCII part): space, tab, newline, CR, VT, FF. -/
def isPyWs (c : Char) : Bool :=
  c = ' ' || c = '\t' || c = '\n' || c = '\r' || c = Char.ofNat 11 || c = Char.ofNat 12

def dropLeadingWs : List Char → List Char
  | [] => []
  | c :: cs => if isPyWs c then dropLeadingWs cs else c :: cs

/-- Python `str.strip()`. -/
def pyStrip (s : String) : String :=
  String.mk ((dropLeadingWs (dropLeadingWs s.data).reverse).reverse)

/-- Lowercase a character (ASCII), as Python `str.lower` does on ASCII text. -/
def lowC (c : Char) : Char :=
  if 'A' ≤ c && c ≤ 'Z' then Char.ofNat (c.toNat + 32) else c

/-- Uppercase a character (ASCII). -/
def upC (c : Char) : Char :=
  if 'a' ≤ c && c ≤ 'z' then Char.ofNat (c.toNat - 32) else c

def pyLower (s : String) : String := String.mk (s.data.map lowC)

def pyUpper (s : String) : String := String.mk (s.data.map upC)

/-- `needle` occurs at the start of `hay` (list version). -/
def startsL : List Char → List Char → Bool
  | [], _ => true
  | _ :: _, [] => false
  | a :: as, b :: bs => a = b && startsL as bs

/-- Python `needle in hay` substring test. -/
def containsL (needle : List Char) : List Char → Bool
  | [] => startsL needle []
  | c :: t => startsL needle (c :: t) || containsL needle t

def pyContains (hay needle : String) : Bool := containsL needle.data hay.data

/-- Python `hay.startswith(needle)`. -/
def pyStartsWith (hay needle : String) : Bool := startsL needle.data hay.data

/-- Python `hay.startswith((n1, n2, ...))`. -/
def pyStartsWithAny (hay : String) (needles : List String) : Bool :=
  needles.any (fun n => pyStartsWith hay n)

/-- Python `s.endswith(needle)`. -/
def pyEndsWith (hay needle : String) : Bool :=
  startsL needle.data.reverse hay.data.reverse

def pySplitAux (sep : List Char) : Nat → List Char → List Char → List (List Char)
  | 0, s, acc => [acc.reverse ++ s]
  | _ + 1, [], acc => [acc.reverse]
  | fuel + 1, c :: t, acc =>
    if startsL sep (c :: t) then
      acc.reverse :: pySplitAux sep fuel (List.drop (sep.length - 1) t) []
    else pySplitAux sep fuel t (c :: acc)

/-- Python `s.split(sep)` for a non-empty separator (keeps empty parts). -/
def pySplit (s sep : String) : List String :=
  if sep.data.isEmpty then [s]
  else (pySplitAux sep.data (s.data.length + 1) s.data []).map String.mk

/-- Python `s.split()` : split on whitespace runs, dropping empty parts. -/
def pySplitWsAux : List Char → List Char → List (List Char)
  | [], acc => if acc.isEmpty then [] else [acc.reverse]
  | c :: t, acc =>
    if isPyWs c then
      if acc.isEmpty then pySplitWsAux t [] else acc.reverse :: pySplitWsAux t []
    else pySplitWsAux t (c :: acc)

def pySplitWs (s : String) : List String :=
  (pySplitWsAux s.data []).map String.mk

/-- Python `s.split(sep, 1)` : split at the first occurrence only. -/
def pySplit1 (s sep : String) : List String :=
  match pySplit s sep with
  | [] => [s]
  | [x] => [x]
  | x :: rest => [x, String.intercalate sep rest]

/-- Python `s.rsplit(sep, 2)` : split at the last two occurrences only. -/
def pyRSplit2 (s sep : String) : List String :=
  match (pySplit s sep).reverse with
  | [] => [s]
  | [x] => [x]
  | [y, x] => [x, y]
  | y :: z :: rest => [String.intercalate sep rest.reverse, z, y]

/-- Python `s.replace(old, new)` for non-empty `old` (all occurrences). -/
def pyReplaceAux (old new : List Char) : Nat → List Char → List Char
  | 0, s => s
  | _ + 1, [] => []
  | fuel + 1, c :: t =>
    if startsL old (c :: t) then
      new ++ pyReplaceAux old new fuel (List.drop (old.length - 1) t)
    else c :: pyReplaceAux old new fuel t

def pyReplace (s old new : String) : String :=
  if old.data.isEmpty then s
  else String.mk (pyReplaceAux old.data new.data s.data.length s.data)

/-- Python `s.isupper()` : at least one cased character and no lowercase one. -/
def pyIsUpper (s : String) : Bool :=
  s.data.any (fun c => ('A' ≤ c && c ≤ 'Z') || ('a' ≤ c && c ≤ 'z')) &&
  !(s.data.any (fun c => 'a' ≤ c && c ≤ 'z'))

/-- Python `s.capitalize()` : first character upper, the rest lower. -/
def pyCapitalize (s : String) : String :=
  match s.data with
  | [] => ""
  | c :: t => String.mk (upC c :: t.map lowC)

/-- Parse a run of decimal digits as a number (Python `int` on digit strings). -/
def pyIntNat (s : String) : Nat :=
  s.data.foldl (fun a c => a * 10 + (c.toNat - 48)) 0

/-- First 1000 characters, Python `text[:1000]`. -/
def pyTake (n : Nat) (s : String) : String := String.mk (s.data.take n)

/-! ### A regex engine with Python `re` semantics -/

/-- One item of a character class. -/
inductive CItem where
  | lit (c : Char)
  | range (lo hi : Char)
  | digit
  | word
  | space
deriving DecidableEq, Repr

/-- A character class `[...]`, possibly negated. -/
structure CCls where
  items : List CItem
  neg : Bool
deriving DecidableEq, Repr

def isWordC (c : Char) : Bool :=
  ('A' ≤ c && c ≤ 'Z') || ('a' ≤ c && c ≤ 'z') || c.isDigit || c = '_'

def swapCase (c : Char) : Char :=
  if 'A' ≤ c && c ≤ 'Z' then lowC c
  else if 'a' ≤ c && c ≤ 'z' then upC c
  else c

def citemMatch (it : CItem) (c : Char) : Bool :=
  match it with
  | .lit d => c = d
  | .range lo hi => lo ≤ c && c ≤ hi
  | .digit => c.isDigit
  | .word => isWordC c
  | .space => isPyWs c

def cclsMatch (ci : Bool) (cl : CCls) (c : Char) : Bool :=
  let base := fun ch => cl.items.any (fun it => citemMatch it ch)
  let m := base c || (ci && base (swapCase c))
  if cl.neg then !m else m

/-- Regular-expression syntax. `star _ true` is the lazy `*?`. -/
inductive Re where
  | eps
  | cls (c : CCls)
  | dot (dotall : Bool)
  | cat (a b : Re)
  | alt (a b : Re)
  | star (r : Re) (lazy : Bool)
  | grp (n : Nat) (r : Re)
  | bol
  | eol
  | eos
  | wb
  | look (r : Re)
deriving Repr

/-- A single literal character. -/
def rch (c : Char) : Re := .cls ⟨[.lit c], false⟩

/-- A literal string. -/
def rstr (s : String) : Re := s.data.foldr (fun c r => .cat (rch c) r) .eps

/-- A never-matching pattern (empty class). -/
def rfail : Re := .cls ⟨[], false⟩

/-- Ordered alternation of a list of patterns. -/
def raltL : List Re → Re
  | [] => rfail
  | [r] => r
  | r :: t => .alt r (raltL t)

/-- Ordered alternation of literal strings. -/
def rstrL (ss : List String) : Re := raltL (ss.map rstr)

/-- `r+` (greedy when `lazy = false`). -/
def rplus (r : Re) (lazy : Bool) : Re := .cat r (.star r lazy)

/-- `r?` (greedy). -/
def ropt (r : Re) : Re := .alt r .eps

/-- `r{n}`. -/
def rrep (r : Re) : Nat → Re
  | 0 => .eps
  | n + 1 => .cat r (rrep r n)

/-- `r{0,n}` (greedy). -/
def rupto (r : Re) : Nat → Re
  | 0 => .eps
  | n + 1 => .alt (.cat r (rupto r n)) .eps

/-- `r{m,n}` (greedy). -/
def rbetween (r : Re) (m n : Nat) : Re := .cat (rrep r m) (rupto r (n - m))

/-- `r{m,}` (greedy). -/
def ratleast (r : Re) (m : Nat) : Re := .cat (rrep r m) (.star r false)

def reSize : Re → Nat
  | .eps => 1
  | .cls _ => 1
  | .dot _ => 1
  | .cat a b => reSize a + reSize b + 1
  | .alt a b => reSize a + reSize b + 1
  | .star r _ => reSize r + 1
  | .grp _ r => reSize r + 1
  | .bol => 1
  | .eol => 1
  | .eos => 1
  | .wb => 1
  | .look r => reSize r + 1

def charAt : List Char → Nat → Option Char
  | [], _ => none
  | c :: _, 0 => some c
  | _ :: t, n + 1 => charAt t n

/-- Capture store: `(group, start, end)`, most recent first. -/
abbrev Caps := List (Nat × Nat × Nat)

/-- All ways to match `r` at `pos`, as `(end, captures)` pairs in Python's
backtracking priority order (first element = the match `re` would take).
`fuel` bounds recursion depth; `matFuel` below always suffices because every
`star` iteration consumes at least one character. -/
def mat (ci : Bool) (s : List Char) : Nat → Re → Nat → Caps → List (Nat × Caps)
  | 0, _, _, _ => []
  | fuel + 1, r, pos, cp =>
    match r with
    | .eps => [(pos, cp)]
    | .cls c =>
      match charAt s pos with
      | some ch => if cclsMatch ci c ch then [(pos + 1, cp)] else []
      | none => []
    | .dot da =>
      match charAt s pos with
      | some ch => if da || ch ≠ '\n' then [(pos + 1, cp)] else []
      | none => []
    | .cat a b =>
      (mat ci s fuel a pos cp).flatMap (fun pc => mat ci s fuel b pc.1 pc.2)
    | .alt a b => mat ci s fuel a pos cp ++ mat ci s fuel b pos cp
    | .star r lzy =>
      let cont := (mat ci s fuel r pos cp).flatMap (fun pc =>
        if pos < pc.1 then mat ci s fuel (.star r lzy) pc.1 pc.2 else [])
      if lzy then (pos, cp) :: cont else cont ++ [(pos, cp)]
    | .grp n r =>
      (mat ci s fuel r pos cp).map (fun pc => (pc.1, (n, pos, pc.1) :: pc.2))
    | .bol => if pos = 0 then [(pos, cp)] else []
    | .eol =>
      if pos = s.length || (pos + 1 = s.length && charAt s pos = some '\n') then
        [(pos, cp)]
      else []
    | .eos => if pos = s.length then [(pos, cp)] else []
    | .wb =>
      let wl := match pos with
        | 0 => false
        | p + 1 => (charAt s p).any isWordC
      let wr := (charAt s pos).any isWordC
      if wl ≠ wr then [(pos, cp)] else []
    | .look r => if (mat ci s fuel r pos cp).isEmpty then [] else [(pos, cp)]

def matFuel (r : Re) (len : Nat) : Nat := (reSize r + 2) * (len + 2)

/-- The match `re` takes at exactly position `pos` (used for `re.match`). -/
def firstMatchAt (ci : Bool) (r : Re) (s : List Char) (pos : Nat) :
    Option (Nat × Caps) :=
  (mat ci s (matFuel r s.length) r pos []).head?

/-- A regex match: start, end, captures. -/
structure RMatch where
  ms : Nat
  me : Nat
  caps : Caps
deriving DecidableEq, Repr

def searchAux (ci : Bool) (r : Re) (s : List Char) : Nat → Nat → Option RMatch
  | 0, _ => none
  | f + 1, pos =>
    match firstMatchAt ci r s pos with
    | some pc => some ⟨pos, pc.1, pc.2⟩
    | none => if s.length ≤ pos then none else searchAux ci r s f (pos + 1)

/-- `re.search` starting at `pos` (tries `pos, pos+1, ...`). -/
def searchFrom (ci : Bool) (r : Re) (s : List Char) (pos : Nat) : Option RMatch :=
  searchAux ci r s (s.length + 2 - pos) pos

/-- Python `re.search(pattern, s)`. -/
def research (ci : Bool) (r : Re) (str : String) : Option RMatch :=
  searchFrom ci r str.data 0

/-- Python `re.match(pattern, s)` (anchored at position 0). -/
def rematch (ci : Bool) (r : Re) (str : String) : Option RMatch :=
  (firstMatchAt ci r str.data 0).map (fun pc => ⟨0, pc.1, pc.2⟩)

def sliceL (s : List Char) (a b : Nat) : List Char := (s.drop a).take (b - a)

def capGet (cp : Caps) (n : Nat) : Option (Nat × Nat) :=
  (cp.find? (fun t => t.1 = n)).map (fun t => (t.2.1, t.2.2))

/-- `m.group(n)`; group 0 is the whole match.  A group that did not
participate yields `""` (all call sites of the source treat `None` and
`""` alike). -/
def RMatch.group (m : RMatch) (str : String) (n : Nat) : String :=
  if n = 0 then String.mk (sliceL str.data m.ms m.me)
  else
    match capGet m.caps n with
    | some ab => String.mk (sliceL str.data ab.1 ab.2)
    | none => ""

def finditerAux (ci : Bool) (r : Re) (s : List Char) : Nat → Nat → List RMatch
  | 0, _ => []
  | f + 1, pos =>
    match searchFrom ci r s pos with
    | none => []
    | some m =>
      m :: finditerAux ci r s f (if m.ms < m.me then m.me else m.me + 1)

/-- Python `re.finditer` / the match list underlying `re.findall`. -/
def refinditer (ci : Bool) (r : Re) (str : String) : List RMatch :=
  finditerAux ci r str.data (str.data.length + 2) 0

/-! ### Shared pattern pieces -/

/-- `\d` -/
def rdig : Re := .cls ⟨[.digit], false⟩
/-- `[A-Za-z]` -/
def ralpha : Re := .cls ⟨[.range 'A' 'Z', .range 'a' 'z'], false⟩
/-- `\s` -/
def rsp : Re := .cls ⟨[.space], false⟩
/-- `\w` -/
def rword : Re := .cls ⟨[.word], false⟩
/-- `\s*` -/
def rsps : Re := .star rsp false
/-- `\s+` -/
def rspp : Re := rplus rsp false
/-- `.*` (no DOTALL) -/
def rdots : Re := .star (.dot false) false
/-- `.*?` (no DOTALL) -/
def rdotsLzy : Re := .star (.dot false) true

def fullMonths : List String :=
  ["January", "February", "March", "April", "May", "June", "July",
   "August", "September", "October", "November", "December"]

def abbrMonths : List String :=
  ["Jan", "Feb", "Mar", "Apr", "May", "Jun", "Jul", "Aug", "Sep", "Oct", "Nov", "Dec"]

/-- Association-list lookup with a default, Python `dict.get(k, d)`. -/
def mapGet (m : List (String × String)) (k d : String) : String :=
  match m.find? (fun p => p.1 = k) with
  | some p => p.2
  | none => d

/-- The month map of `_parse_start_date` / `_parse_end_date` (full names). -/
def monthMapFull : List (String × String) :=
  [("January", "01"), ("February", "02"), ("March", "03"), ("April", "04"),
   ("May", "05"), ("June", "06"), ("July", "07"), ("August", "08"),
   ("September", "09"), ("October", "10"), ("November", "11"), ("December", "12")]

/-- The month map for 3-letter abbreviations. -/
def monthMapAbbr : List (String × String) :=
  [("Jan", "01"), ("Feb", "02"), ("Mar", "03"), ("Apr", "04"),
   ("May", "05"), ("Jun", "06"), ("Jul", "07"), ("Aug", "08"),
   ("Sep", "09"), ("Oct", "10"), ("Nov", "11"), ("Dec", "12")]

/-! ### The date normalizer (`_parse_start_date`, `_parse_end_date`) -/

/-- The two-digit-year disambiguation shared inline by `_parse_start_date`
(lines 1433–1438) and `_parse_end_date` (lines 1487–1492): years `00`–`30`
become `20xx`, years `31`–`99` become `19xx`. -/
def two_digit_year (year_str : String) : String :=
  if pyIntNat year_str ≤ 30 then "20" ++ year_str else "19" ++ year_str

-- (January|February|March|April|May|June|July|August|September|October|November|December)\s+(\d{4})
def reFullMonthYear : Re :=
  .cat (.grp 1 (rstrL fullMonths)) (.cat rspp (.grp 2 (rrep rdig 4)))

-- ([A-Za-z]{3})'?\s*'?\s*(\d{2,4})
def reAbbrMonthYear : Re :=
  .cat (.grp 1 (rrep ralpha 3))
    (.cat (ropt (rch apoC))
      (.cat rsps (.cat (ropt (rch apoC)) (.cat rsps (.grp 2 (rbetween rdig 2 4))))))

-- (\d{4})
def reYear4 : Re := .grp 1 (rrep rdig 4)

/-- The source's `re.search(r"(?i)(present|current|now|ongoing)", s)`:
an ordered case-insensitive scan for the four literal alternatives
(IGNORECASE matching of ASCII literals = matching in the lowercased text). -/
def searchPresentCI (s : String) : Bool :=
  ["present", "current", "now", "ongoing"].any
    (fun n => containsL n.data (pyLower s).data)

/-- `_parse_start_date` (lines 1399–1455). -/
def parse_start_date (date_string : String) : String :=
  if date_string = "" then ""
  else
    -- Pattern 1: full month name + year
    match research true reFullMonthYear date_string with
    | some m =>
      let month_str := m.group date_string 1
      let year_str := m.group date_string 2
      let month_num := mapGet monthMapFull (pyCapitalize month_str) "01"
      year_str ++ "-" ++ month_num ++ "-01"
    | none =>
      -- Pattern 2: Month' Year format (Feb' 16, Jul' 07)
      match research false reAbbrMonthYear date_string with
      | some m =>
        let month_str := m.group date_string 1
        let year_str := m.group date_string 2
        let year_str :=
          if year_str.data.length = 2 then two_digit_year year_str else year_str
        let month_num := mapGet monthMapAbbr (pyCapitalize month_str) "01"
        year_str ++ "-" ++ month_num ++ "-01"
      | none =>
        -- Pattern 3: four-digit year anywhere
        match research false reYear4 date_string with
        | some m => m.group date_string 1 ++ "-01-01"
        | none => ""

/-- `_parse_end_date` (lines 1457–1512). -/
def parse_end_date (date_string : String) : String :=
  if date_string = "" then ""
  else if searchPresentCI date_string then "Present"
  else
    -- Pattern 1: findall of full month name + year, take the second
    let fm := refinditer true reFullMonthYear date_string
    match fm with
    | _ :: m2 :: _ =>
      let month_str := m2.group date_string 1
      let year_str := m2.group date_string 2
      let month_num := mapGet monthMapFull (pyCapitalize month_str) "12"
      year_str ++ "-" ++ month_num ++ "-01"
    | _ =>
      -- Pattern 2: findall of Month' Year, take the second
      let am := refinditer false reAbbrMonthYear date_string
      match am with
      | _ :: m2 :: _ =>
        let month_str := m2.group date_string 1
        let year_str := m2.group date_string 2
        let year_str :=
          if year_str.data.length = 2 then two_digit_year year_str else year_str
        let month_num := mapGet monthMapAbbr (pyCapitalize month_str) "12"
        year_str ++ "-" ++ month_num ++ "-01"
      | _ =>
        -- Pattern 3: findall of four-digit years - take the last
        let ym := (refinditer false reYear4 date_string).map
          (fun m => m.group date_string 1)
        match ym.reverse with
        | last :: _ :: _ => last ++ "-12-31"
        | [y] => y ++ "-12-31"
        | [] => ""

/-! ### Data model -/

structure CandidateName where
  formattedName : String
  givenName : String
  familyName : String
deriving DecidableEq, Repr

structure PyLocation where
  municipality : String
  region : String
  countryCode : String
deriving DecidableEq, Repr

structure ContactInfo where
  candidateName : CandidateName
  emailAddresses : List String
  telephones : List String
  location : PyLocation
deriving DecidableEq, Repr

structure EduEntry where
  school : String
  degreeName : String
  degreeType : String
  dates : String
  startDate : String
  endDate : String
  gpa : String
deriving DecidableEq, Repr

structure Position where
  jobTitle : String
  company : String
  location : String
  startDate : String
  endDate : String
  dates : String
  description : List String
deriving DecidableEq, Repr

/-- A skill candidate before deduplication.  `category` is an optional dict
key in the source (method 1 does not set it). -/
structure SkillCand where
  name : String
  category : Option String
  source : String
  confidence : ℚ
deriving DecidableEq, Repr

structure SkillFinal where
  name : String
  category : String
  monthsExperience : Nat
  confidence : ℚ
  source : String
  lastUsed : String
deriving DecidableEq, Repr

structure Cert where
  name : String
  authority : String
deriving DecidableEq, Repr

structure ProjectEntry where
  name : String
  description : List String
deriving DecidableEq, Repr

structure ResumeRecord where
  contactInformation : ContactInfo
  educationDetails : List EduEntry
  positions : List Position
  skills : List SkillFinal
  projects : List ProjectEntry
  certifications : List Cert
  processingTime : ℚ
  qualityScore : ℚ
deriving DecidableEq, Repr

/-! ### `_classify_degree_type` -/

/-- `_classify_degree_type` (lines 172–180). -/
def classify_degree_type (degree_name : String) : String :=
  let degree_lower := pyLower degree_name
  if ["phd", "ph.d", "doctorate", "doctoral"].any
      (fun k => pyContains degree_lower k) then "doctorate"
  else if ["master", "mba", "msc", "ms ", "ma ", "executive mba"].any
      (fun k => pyContains degree_lower k) then "masters"
  else "bachelors"

/-! ### `_extract_education_improved` (lines 182–442) -/

/-- `[^,]` -/
def rnotComma : Re := .cls ⟨[.lit ','], true⟩

-- Ph\.?D\.?
def rePhDot : Re :=
  .cat (rstr "Ph") (.cat (ropt (rch '.')) (.cat (rstr "D") (ropt (rch '.'))))

-- \b(MBA|MS|MA|BS|BA|PhD|MSc|BSc|Ph\.?D\.?)\s*([^,]*)
def reS1 : Re :=
  .cat .wb
    (.cat (.grp 1 (raltL [rstr "MBA", rstr "MS", rstr "MA", rstr "BS", rstr "BA",
        rstr "PhD", rstr "MSc", rstr "BSc", rePhDot]))
      (.cat rsps (.grp 2 (.star rnotComma false))))

-- ^(EDUCATION|Education|EDUCATION:|Education\s*/\s*Certifications|\s*Education\s*&\s*Training)\s*:?\s*$
def reEduHeader : Re :=
  .cat .bol
    (.cat (.grp 1 (raltL [rstr "EDUCATION", rstr "Education", rstr "EDUCATION:",
        .cat (rstr "Education") (.cat rsps (.cat (rch '/') (.cat rsps (rstr "Certifications")))),
        .cat rsps (.cat (rstr "Education") (.cat rsps (.cat (rch '&') (.cat rsps (rstr "Training")))))]))
      (.cat rsps (.cat (ropt (rch ':')) (.cat rsps .eol))))

-- ^(Skills|Experience|Certifications|Projects|Professional|Work|Employment)
def reEduEnd : Re :=
  .cat .bol (.grp 1 (rstrL ["Skills", "Experience", "Certifications", "Projects",
     "Professional", "Work", "Employment"]))

-- (BSc|MSc|BA|MA|BS|MS|PhD|MBA|Bachelor|Master)
def reDegreeKw : Re :=
  .grp 1 (rstrL ["BSc", "MSc", "BA", "MA", "BS", "MS", "PhD", "MBA", "Bachelor", "Master"])

-- (BSc|MSc|BA|MA|BS|MS|PhD|MBA|Bachelor[^,]*|Master[^,]*),?\s*([^,]*),?\s*(.*)
def reS2Parse : Re :=
  .cat (.grp 1 (raltL [rstr "BSc", rstr "MSc", rstr "BA", rstr "MA", rstr "BS",
      rstr "MS", rstr "PhD", rstr "MBA",
      .cat (rstr "Bachelor") (.star rnotComma false),
      .cat (rstr "Master") (.star rnotComma false)]))
    (.cat (ropt (rch ','))
      (.cat rsps
        (.cat (.grp 2 (.star rnotComma false))
          (.cat (ropt (rch ',')) (.cat rsps (.grp 3 rdots))))))

-- (Bachelors?|Masters?|Executive MBA|MBA)
def reS3aGrp : Re :=
  .grp 1 (raltL [.cat (rstr "Bachelor") (ropt (rch 's')),
     .cat (rstr "Master") (ropt (rch 's')), rstr "Executive MBA", rstr "MBA"])

-- ^(Bachelors?|Masters?|Executive MBA|MBA)\s+in\s+.*,\s+.*University
def reS3aTest : Re :=
  .cat .bol (.cat reS3aGrp (.cat rspp (.cat (rstr "in") (.cat rspp
    (.cat rdots (.cat (rch ',') (.cat rspp (.cat rdots (rstr "University")))))))))

-- ^(Bachelors?|Masters?|Executive MBA|MBA)\s+in\s+(.*?),\s+(.*University[^,]*)
def reS3aParse : Re :=
  .cat .bol (.cat reS3aGrp (.cat rspp (.cat (rstr "in") (.cat rspp
    (.cat (.grp 2 rdotsLzy) (.cat (rch ',') (.cat rspp
      (.grp 3 (.cat rdots (.cat (rstr "University") (.star rnotComma false)))))))))))

-- (Master of|Bachelor of|PhD in|PHD in)\s+.*\s+(from|at)\s+.*University
def reS3bTest : Re :=
  .cat (.grp 1 (rstrL ["Master of", "Bachelor of", "PhD in", "PHD in"]))
    (.cat rspp (.cat rdots (.cat rspp (.cat (.grp 2 (rstrL ["from", "at"]))
      (.cat rspp (.cat rdots (rstr "University")))))))

-- (Master of|Bachelor of|PhD in|PHD in)\s+(.*?)\s+(?:with.*?)?\s*(?:from|at)\s+(.*)
def reS3bParse : Re :=
  .cat (.grp 1 (rstrL ["Master of", "Bachelor of", "PhD in", "PHD in"]))
    (.cat rspp (.cat (.grp 2 rdotsLzy) (.cat rspp
      (.cat (ropt (.cat (rstr "with") rdotsLzy))
        (.cat rsps (.cat (raltL [rstr "from", rstr "at"])
          (.cat rspp (.grp 3 rdots))))))))

-- ^(Master of Science|Master of Business Administration|Bachelor of|PhD|PHD)\s+.*
def reS3cTest : Re :=
  .cat .bol (.cat (.grp 1 (rstrL ["Master of Science", "Master of Business Administration",
      "Bachelor of", "PhD", "PHD"])) (.cat rspp rdots))

-- ^(Master of Science|Master of Business Administration|Bachelor of[^,]*|PhD|PHD)\s*(.*?)(?:\s+with.*)?$
def reS3cParse : Re :=
  .cat .bol
    (.cat (.grp 1 (raltL [rstr "Master of Science", rstr "Master of Business Administration",
        .cat (rstr "Bachelor of") (.star rnotComma false), rstr "PhD", rstr "PHD"]))
      (.cat rsps (.cat (.grp 2 rdotsLzy)
        (.cat (ropt (.cat rspp (.cat (rstr "with") rdots))) .eol))))

-- ^(PHD|PhD|Master|Bachelor)\s+in\s+.*
def reS3dTest : Re :=
  .cat .bol (.cat (.grp 1 (rstrL ["PHD", "PhD", "Master", "Bachelor"]))
    (.cat rspp (.cat (rstr "in") (.cat rspp rdots))))

-- ^(PHD|PhD|Master|Bachelor)\s+in\s+(.*)
def reS3dParse : Re :=
  .cat .bol (.cat (.grp 1 (rstrL ["PHD", "PhD", "Master", "Bachelor"]))
    (.cat rspp (.cat (rstr "in") (.cat rspp (.grp 2 rdots)))))

-- ^Education\s*$
def reEduStart4 : Re := .cat .bol (.cat (rstr "Education") (.cat rsps .eol))

-- ^(Certificates?|Skills|Management|IT\s+Skills)
def reEduEnd4 : Re :=
  .cat .bol (.grp 1 (raltL [.cat (rstr "Certificate") (ropt (rch 's')),
    rstr "Skills", rstr "Management", .cat (rstr "IT") (.cat rspp (rstr "Skills"))]))

-- [IVX]+\.\s*(Bachelor|Master)
def reRoman : Re :=
  .cat (rplus (.cls ⟨[.lit 'I', .lit 'V', .lit 'X'], false⟩) false)
    (.cat (rch '.') (.cat rsps (.grp 1 (raltL [rstr "Bachelor", rstr "Master"]))))

-- [IVX]+\.\s*(.*)
def reRomanAll : Re :=
  .cat (rplus (.cls ⟨[.lit 'I', .lit 'V', .lit 'X'], false⟩) false)
    (.cat (rch '.') (.cat rsps (.grp 1 rdots)))

-- ^(.*?)\s*\((\d{4})\)$
def reSchoolYear : Re :=
  .cat .bol (.cat (.grp 1 rdotsLzy) (.cat rsps (.cat (rch '(')
    (.cat (.grp 2 (rrep rdig 4)) (.cat (rch ')') .eol)))))

-- University.*–.*USA
def reUniUSA : Re :=
  .cat (rstr "University") (.cat rdots (.cat (rch '–') (.cat rdots (rstr "USA"))))

-- University.*,.*UK
def reUniUK : Re :=
  .cat (rstr "University") (.cat rdots (.cat (rch ',') (.cat rdots (rstr "UK"))))

-- (Master of Business Administration|Bachelor of Computer Science|MBA)
def reS5Deg : Re :=
  .grp 1 (rstrL ["Master of Business Administration", "Bachelor of Computer Science", "MBA"])

-- (Master of Business Administration|Bachelor of Computer Science|MBA)[^–]*
def reS5DegFull : Re :=
  .cat reS5Deg (.star (.cls ⟨[.lit '–'], true⟩) false)

def eduCertKeywords : List String :=
  ["PMP", "CERTIFIED", "SCRUM", "CISSP", "CISM", "CISA", "CRISC"]

/-- The education-entry dict literal used by every strategy: the school and
degree name vary, the type is always `classify_degree_type` of the name, and
only strategy 4 ever fills `Dates`. -/
def mkEduEntry (school degree_name dates : String) : EduEntry :=
  ⟨school, degree_name, classify_degree_type degree_name, dates, "", "", ""⟩

/-- The lines `lines[i+1 .. min(i+1+n, len)]`, the look-ahead windows of
strategies 3–5 (`range(i + 1, min(i + 1 + n, len(lines)))`). -/
def window (lines : List String) (i n : Nat) : List String :=
  (lines.drop (i + 1)).take n

/-- Strategy 1: degrees on the first (title) line. -/
def eduStrategy1 (lines : List String) : List EduEntry :=
  let first_line := match lines with | [] => "" | l :: _ => pyStrip l
  if first_line = "" then []
  else
    (refinditer true reS1 first_line).foldl (fun acc m =>
      let degree_type := pyUpper (m.group first_line 1)
      let degree_field := pyStrip (m.group first_line 2)
      if eduCertKeywords.any (fun k => pyContains (pyUpper degree_field) k) then acc
      else
        let degree_name :=
          if degree_field ≠ "" then degree_type ++ " " ++ degree_field else degree_type
        acc ++ [mkEduEntry "" degree_name ""]) []

/-- One line of strategy 2 (education-section degree lines); the state is
`(in_education_section, education)`. -/
def eduStrategy2Step (st : Bool × List EduEntry) (line : String) :
    Bool × List EduEntry :=
  let in_sec := st.1
  let acc := st.2
  let line_clean := pyStrip line
  if (rematch true reEduHeader line_clean).isSome then (true, acc)
  else if in_sec && (rematch true reEduEnd line_clean).isSome then (false, acc)
  else if in_sec && line_clean ≠ "" && !pyStartsWith line_clean "•" then
    if eduCertKeywords.any (fun k => pyContains (pyUpper line_clean) k) then
      (in_sec, acc)
    else if (research true reDegreeKw line_clean).isSome then
      match research true reS2Parse line_clean with
      | some m =>
        let degree_name := pyStrip (m.group line_clean 1)
        let field := if m.group line_clean 2 ≠ "" then pyStrip (m.group line_clean 2) else ""
        let school_info := if m.group line_clean 3 ≠ "" then pyStrip (m.group line_clean 3) else ""
        let degree_name :=
          if field ≠ "" && !(["computer", "university", "college"].contains (pyLower field)) then
            degree_name ++ " " ++ field
          else degree_name
        (in_sec, acc ++ [mkEduEntry school_info degree_name ""])
      | none => (in_sec, acc)
    else (in_sec, acc)
  else (in_sec, acc)

/-- First look-ahead line whose stripped form satisfies `p` (the
`for j in range(...)` school searches), returned stripped. -/
def firstSchool (cands : List String) (p : String → Bool) : String :=
  match cands.find? (fun l => p (pyStrip l)) with
  | some l => pyStrip l
  | none => ""

/-- One line of strategy 3 (standalone degree sentences).  The skip
condition transcribes the source's comprehension
`line_clean in [line.strip() for edu in education for edu in [...]]`,
whose inner expression is `line.strip()` for every accumulated entry. -/
def eduStrategy3Step (lines : List String) (acc : List EduEntry) (i : Nat)
    (line : String) : List EduEntry :=
  let line_clean := pyStrip line
  if line_clean = "" || (acc.map (fun _ => pyStrip line)).contains line_clean then acc
  else if (research true reS3aTest line_clean).isSome then
    match research true reS3aParse line_clean with
    | some m =>
      let degree_type := pyStrip (m.group line_clean 1)
      let field := pyStrip (m.group line_clean 2)
      let school := pyStrip (m.group line_clean 3)
      acc ++ [mkEduEntry school (degree_type ++ " in " ++ field) ""]
    | none => acc
  else if (research true reS3bTest line_clean).isSome then
    match research true reS3bParse line_clean with
    | some m =>
      let degree_type := pyStrip (m.group line_clean 1)
      let field := pyStrip (m.group line_clean 2)
      let school := pyStrip (m.group line_clean 3)
      acc ++ [mkEduEntry school (degree_type ++ " " ++ field) ""]
    | none => acc
  else if (research true reS3cTest line_clean).isSome then
    match research true reS3cParse line_clean with
    | some m =>
      let degree_base := pyStrip (m.group line_clean 1)
      let field := if m.group line_clean 2 ≠ "" then pyStrip (m.group line_clean 2) else ""
      let degree_name := pyStrip (degree_base ++ " " ++ field)
      let school_name := firstSchool (window lines i 2)
        (fun nl => ["university", "college", "institute"].any
          (fun k => pyContains (pyLower nl) k))
      acc ++ [mkEduEntry school_name degree_name ""]
    | none => acc
  else if (research true reS3dTest line_clean).isSome then
    match research true reS3dParse line_clean with
    | some m =>
      let degree_type := m.group line_clean 1
      let field := pyStrip (m.group line_clean 2)
      let degree_name := degree_type ++ " in " ++ field
      let school_name := firstSchool (window lines i 3)
        (fun nl => (["university", "college", "institute"].any
            (fun k => pyContains (pyLower nl) k)) && !pyStartsWith nl "Ø")
      acc ++ [mkEduEntry school_name degree_name ""]
    | none => acc
  else acc

/-- Strategy 4 (roman-numeral lists inside an `Education` section); the
`break` on an end header stops the whole scan. -/
def eduStrategy4Go (lines : List String) :
    List (Nat × String) → Bool → List EduEntry → List EduEntry
  | [], _, acc => acc
  | (i, line) :: rest, in_sec, acc =>
    let line_clean := pyStrip line
    if (rematch true reEduStart4 line_clean).isSome then
      eduStrategy4Go lines rest true acc
    else if in_sec && (rematch true reEduEnd4 line_clean).isSome then acc
    else if in_sec && line_clean ≠ "" then
      if (rematch true reRoman line_clean).isSome then
        match research false reRomanAll line_clean with
        | some m =>
          let degree_name := pyStrip (m.group line_clean 1)
          let found := (window lines i 3).find? (fun nl' =>
            let nl := pyStrip nl'
            nl ≠ "" && ["University", "School", "College", "Institute"].any
              (fun k => pyContains nl k))
          let sd := match found with
            | some nl' =>
              let next_line := pyStrip nl'
              match rematch false reSchoolYear next_line with
              | some sm =>
                (pyStrip (sm.group next_line 1), pyStrip (sm.group next_line 2))
              | none => (next_line, "")
            | none => ("", "")
          eduStrategy4Go lines rest in_sec
            (acc ++ [mkEduEntry sd.1 degree_name sd.2])
        | none => eduStrategy4Go lines rest in_sec acc
      else eduStrategy4Go lines rest in_sec acc
    else eduStrategy4Go lines rest in_sec acc

/-- One line of strategy 5 (school line followed by a degree line). -/
def eduStrategy5Step (lines : List String) (acc : List EduEntry) (i : Nat)
    (line : String) : List EduEntry :=
  let line_clean := pyStrip line
  if (research true reUniUSA line_clean).isSome ||
      (research true reUniUK line_clean).isSome then
    let school_name := line_clean
    match (window lines i 3).find?
        (fun nl => (research true reS5Deg (pyStrip nl)).isSome) with
    | some nl' =>
      let next_line := pyStrip nl'
      match research true reS5DegFull next_line with
      | some m =>
        let degree_name := pyStrip (m.group next_line 0)
        let already_exists :=
          acc.any (fun edu => pyLower edu.degreeName = pyLower degree_name)
        if already_exists then acc
        else acc ++ [mkEduEntry school_name degree_name ""]
      | none => acc
    | none => acc
  else acc

/-- The final deduplication pass of `_extract_education_improved`
(lines 433–442): entries with an empty degree name are dropped and the
first entry of each degree name is kept. -/
def dedup_education_aux : List String → List EduEntry → List EduEntry
  | _, [] => []
  | seen, e :: rest =>
    if e.degreeName ≠ "" && !(seen.contains e.degreeName) then
      e :: dedup_education_aux (e.degreeName :: seen) rest
    else dedup_education_aux seen rest

def dedup_education (l : List EduEntry) : List EduEntry :=
  dedup_education_aux [] l

/-- `_extract_education_improved` (lines 182–442): the five strategies
append to one shared list, then the deduplication pass runs. -/
def extract_education_improved (text : String) : List EduEntry :=
  let lines := pySplit text "\n"
  let education := eduStrategy1 lines
  let education := (lines.foldl eduStrategy2Step (false, education)).2
  let education := lines.enum.foldl
    (fun acc il => eduStrategy3Step lines acc il.1 il.2) education
  let education := eduStrategy4Go lines lines.enum false education
  let education := lines.enum.foldl
    (fun acc il => eduStrategy5Step lines acc il.1 il.2) education
  dedup_education education

/-! ### `_calculate_quality_score` -/

/-- `_calculate_quality_score` (lines 1377–1397).  Float weights are
modelled as exact rationals. -/
def calculate_quality_score (contact_info : ContactInfo)
    (experience : List Position) (education : List EduEntry)
    (skills : List SkillFinal) : ℚ :=
  let score : ℚ := 0
  let score := if contact_info.candidateName.formattedName ≠ "" then
    score + mkRat 25 100 else score
  let score := if experience ≠ [] then score + mkRat 30 100 else score
  let score := if education ≠ [] then score + mkRat 25 100 else score
  let score := if skills ≠ [] then score + mkRat 20 100 else score
  score

/-! ### The skills subsystem (lines 918–1188) -/

/-- `_build_comprehensive_skills_database` (lines 948–992), in source
(dict-insertion) order. -/
def skills_database : List (String × List String) :=
  [("Programming Languages",
    ["Python", "Java", "JavaScript", "TypeScript", "C++", "C#", "Go", "Rust", "Ruby", "PHP",
     "Swift", "Kotlin", "Scala", "R", "MATLAB", "SQL", "HTML", "CSS", "Shell", "Bash",
     "PowerShell", "Perl", "VB.NET", "Dart", "Elixir", "Clojure", "F#", "Haskell"]),
   ("Cloud & DevOps",
    ["AWS", "Azure", "GCP", "Google Cloud", "Docker", "Kubernetes", "Jenkins", "Git", "GitLab",
     "GitHub", "CI/CD", "Terraform", "Ansible", "Chef", "Puppet", "Vagrant", "Helm",
     "Azure DevOps", "TFS", "Mesos", "Subversion", "SVN", "Cloudflare", "Key Cloak"]),
   ("Databases",
    ["MySQL", "PostgreSQL", "MongoDB", "Redis", "SQLite", "Oracle", "SQL Server",
     "Cassandra", "DynamoDB", "Elasticsearch", "Neo4j", "InfluxDB", "Oracle Cloud"]),
   ("Frameworks & Libraries",
    ["React", "Angular", "Vue.js", "Django", "Flask", "FastAPI", "Spring", "Express.js",
     "Node.js", ".NET", "Laravel", "Rails", "jQuery", "Bootstrap", "TensorFlow",
     "PyTorch", "Keras", "NumPy", "Pandas", "Scikit-learn", "OpenCV", "Responsive Web"]),
   ("Enterprise Software",
    ["SAP", "S/4 HANA", "Salesforce", "Microsoft Dynamics", "ServiceNow", "EPIC", "Sitecore",
     "Backbase", "Clarity", "TIBCO", "Pega DSM", "Comburent", "Office 365", "Microsoft Office Suite",
     "Visio", "Adobe Workfront", "Hyperion", "Jira", "Coupa", "Blockchain", "Digital Assets"]),
   ("Data & Analytics",
    ["ETL", "Big Data", "Hadoop", "Spark", "Kafka", "Data Mining", "Machine Learning", "AI",
     "Deep Learning", "Data Visualization", "Tableau", "Power BI", "Analytics"]),
   ("Mobile & Web",
    ["Mobile Apps", "iOS", "Android", "React Native", "Flutter", "Xamarin", "Responsive Design",
     "Progressive Web Apps", "PWA", "Mobile Development"]),
   ("Security & Identity",
    ["IAM", "Identity Access Management", "SSO", "Single Sign-On", "MFA", "Multi-Factor Authentication",
     "SAML", "OAuth", "LDAP", "Active Directory", "IBM Identity Security Access Manager",
     "Shape Security", "BioCatch", "Cybersecurity", "Information Security"]),
   ("Project Management",
    ["Agile", "Scrum", "Kanban", "SAFe", "Waterfall", "PMP", "PMI", "Project Management",
     "Program Management", "Portfolio Management", "PRINCE2", "Lean", "Six Sigma"])]

-- (?i)^(Technical Skillset|Technical Skills|Skills|Core Competencies|Technologies|Tools|Platforms)s?\s*$
def reSkillsH1 : Re :=
  .cat .bol (.cat (.grp 1 (rstrL ["Technical Skillset", "Technical Skills", "Skills",
      "Core Competencies", "Technologies", "Tools", "Platforms"]))
    (.cat (ropt (rch 's')) (.cat rsps .eol)))

-- (?i)^(Relevant Skills|Key Skills|Professional Skills|Technical Expertise)\s*$
def reSkillsH2 : Re :=
  .cat .bol (.cat (.grp 1 (rstrL ["Relevant Skills", "Key Skills", "Professional Skills",
      "Technical Expertise"])) (.cat rsps .eol))

-- (?i)^(Programming Languages|Software|Systems|Applications)\s*$
def reSkillsH3 : Re :=
  .cat .bol (.cat (.grp 1 (rstrL ["Programming Languages", "Software", "Systems",
      "Applications"])) (.cat rsps .eol))

-- (?i)^(Experience|Education|Projects|Certifications|References|Contact|Summary)\s*$
def reSkillsStop : Re :=
  .cat .bol (.cat (.grp 1 (rstrL ["Experience", "Education", "Projects", "Certifications",
      "References", "Contact", "Summary"])) (.cat rsps .eol))

def skillsHeaderMatch (l : String) : Bool :=
  (rematch true reSkillsH1 l).isSome || (rematch true reSkillsH2 l).isSome ||
  (rematch true reSkillsH3 l).isSome

/-- The content-collection loop of `_find_skills_sections` (lines 1011–1026):
collect non-empty lines after the header until the next major or skills-like
header. -/
def skillsSectionContent : List String → List String
  | [] => []
  | l :: rest =>
    let next_line := pyStrip l
    if (rematch true reSkillsStop next_line).isSome then []
    else if skillsHeaderMatch next_line then []
    else if next_line ≠ "" then next_line :: skillsSectionContent rest
    else skillsSectionContent rest

/-- `_find_skills_sections` (lines 994–1032). -/
def find_skills_sections (text : String) : List String :=
  let lines := pySplit text "\n"
  lines.enum.foldl (fun sections il =>
    let line := pyStrip il.2
    if skillsHeaderMatch line then
      let section_content := skillsSectionContent (lines.drop (il.1 + 1))
      if section_content ≠ [] then
        sections ++ [String.intercalate "\n" section_content]
      else sections
    else sections) []

-- ^[-•*]\s*
def reBullet : Re :=
  .cat .bol (.cat (.cls ⟨[.lit '-', .lit '•', .lit '*'], false⟩) rsps)

/-- `re.sub(r'^[-•*]\s*', '', line)`: the pattern can only match once, at
position 0. -/
def pySubBullet (line : String) : String :=
  match rematch false reBullet line with
  | some m => String.mk (line.data.drop m.me)
  | none => line

/-- `_parse_skills_from_section` (lines 1034–1077). -/
def parse_skills_from_section (section_text : String) : List SkillCand :=
  if pyContains section_text "|" then
    (pySplit section_text "\n").foldl (fun skills line =>
      if pyContains line "|" then
        skills ++ ((pySplit line "|").map pyStrip).foldl (fun acc skill =>
          if skill ≠ "" && skill.data.length > 1 then
            acc ++ [⟨skill, none, "skills_section", mkRat 95 100⟩]
          else acc) []
      else skills) []
  else if pyContains section_text "," then
    ((pySplit (pyReplace section_text "\n" ",") ",").map pyStrip).foldl (fun acc skill =>
      if skill ≠ "" && skill.data.length > 1 then
        acc ++ [⟨skill, none, "skills_section", mkRat 9 10⟩]
      else acc) []
  else
    (pySplit section_text "\n").foldl (fun acc l =>
      let line := pySubBullet (pyStrip l)
      if line ≠ "" && line.data.length > 1 then
        acc ++ [⟨line, none, "skills_section", mkRat 85 100⟩]
      else acc) []

/-- `_extract_skills_from_experience` (lines 1079–1107): whole-word database
matches in the upper-cased text (`r'\b' + re.escape(term) + r'\b'`). -/
def extract_skills_from_experience (text : String) : List SkillCand :=
  let text_upper := pyUpper text
  (skills_database.flatMap (fun cat => cat.2.map (fun sk => (sk, cat.1)))).foldl
    (fun acc p =>
      let search_term := pyUpper p.1
      if pyContains text_upper search_term then
        if (research false (.cat .wb (.cat (rstr search_term) .wb)) text_upper).isSome then
          acc ++ [⟨p.1, some p.2, "experience_text", mkRat 8 10⟩]
        else acc
      else acc) []

-- using\s+([A-Z][a-zA-Z]+)
def rAZ : Re := .cls ⟨[.range 'A' 'Z'], false⟩
def rAlphaRun : Re := rplus (.cls ⟨[.range 'a' 'z', .range 'A' 'Z'], false⟩) false
def rAlphaSpRun : Re := rplus (.cls ⟨[.range 'a' 'z', .range 'A' 'Z', .space], false⟩) false

def reCtx1 : Re := .cat (rstr "using") (.cat rspp (.grp 1 (.cat rAZ rAlphaRun)))
def reCtx2 : Re := .cat (rstr "with") (.cat rspp (.grp 1 (.cat rAZ rAlphaRun)))
-- experience\s+(?:in|with)\s+([A-Z][a-zA-Z\s]+)
def reCtx3 : Re :=
  .cat (rstr "experience") (.cat rspp (.cat (raltL [rstr "in", rstr "with"])
    (.cat rspp (.grp 1 (.cat rAZ rAlphaSpRun)))))
def reCtx4 : Re := .cat (rstr "implemented") (.cat rspp (.grp 1 (.cat rAZ rAlphaSpRun)))
-- developed\s+(?:using|with)\s+([A-Z][a-zA-Z\s]+)
def reCtx5 : Re :=
  .cat (rstr "developed") (.cat rspp (.cat (raltL [rstr "using", rstr "with"])
    (.cat rspp (.grp 1 (.cat rAZ rAlphaSpRun)))))
def reCtx6 : Re :=
  .cat (rstr "expertise") (.cat rspp (.cat (raltL [rstr "in", rstr "with"])
    (.cat rspp (.grp 1 (.cat rAZ rAlphaSpRun)))))

/-- `_extract_contextual_skills` (lines 1109–1140).  The inner `break` only
leaves the per-category keyword loop, so one match can add a skill for each
category. -/
def extract_contextual_skills (text : String) : List SkillCand :=
  [reCtx1, reCtx2, reCtx3, reCtx4, reCtx5, reCtx6].foldl (fun skills pat =>
    (refinditer true pat text).foldl (fun skills m =>
      let potential_skill := pyStrip (m.group text 1)
      skills_database.foldl (fun skills cat =>
        match cat.2.find? (fun known =>
            pyContains (pyUpper potential_skill) (pyUpper known)) with
        | some known => skills ++ [⟨known, some cat.1, "contextual", mkRat 7 10⟩]
        | none => skills) skills) skills) []

/-- One step of `_deduplicate_skills`'s dict build (lines 1142–1155):
Python dicts keep keys in insertion order, values are replaced in place
when a strictly higher confidence arrives. -/
def dedupInsert (acc : List (String × SkillCand)) (skill : SkillCand) :
    List (String × SkillCand) :=
  if acc.any (fun p => p.1 = pyUpper skill.name) then
    acc.map (fun p =>
      if p.1 = pyUpper skill.name ∧ p.2.confidence < skill.confidence then (p.1, skill)
      else p)
  else acc ++ [(pyUpper skill.name, skill)]

/-- `_deduplicate_skills` (lines 1142–1155). -/
def deduplicate_skills (skills : List SkillCand) : List SkillCand :=
  (skills.foldl dedupInsert []).map Prod.snd

/-- `_enhance_skill_metadata` (lines 1157–1188). -/
def enhance_skill_metadata (skill : SkillCand) (text : String) : SkillFinal :=
  let skill_name := pyLower skill.name
  let text_lower := pyLower text
  let months_experience : Nat :=
    if pyContains text_lower ("expert " ++ skill_name) ||
        pyContains text_lower (skill_name ++ " expert") then 72
    else if pyContains text_lower ("senior " ++ skill_name) ||
        pyContains text_lower ("lead " ++ skill_name) then 60
    else if pyContains text_lower ("advanced " ++ skill_name) then 48
    else if [skill_name ++ " developer", skill_name ++ " engineer",
        skill_name ++ " architect"].any (fun ph => pyContains text_lower ph) then 36
    else if pyContains text_lower skill_name then 24
    else 12
  { name := skill.name
    category := skill.category.getD "Technical Skills"
    monthsExperience := months_experience
    confidence := skill.confidence
    source := skill.source
    lastUsed := "2024" }

/-- The final phase of `_extract_skills_improved` (lines 937–946):
deduplicate, add metadata, keep the top 25. -/
def skillsFinalize (text : String) (skills : List SkillCand) : List SkillFinal :=
  let unique_skills := deduplicate_skills skills
  let final_skills := unique_skills.map (fun s => enhance_skill_metadata s text)
  final_skills.take 25

/-- `_extract_skills_improved` (lines 918–946). -/
def extract_skills_improved (text : String) : List SkillFinal :=
  let skills := (find_skills_sections text).foldl
    (fun acc sec => acc ++ parse_skills_from_section sec) []
  let skills := skills ++ extract_skills_from_experience text
  let skills := skills ++ extract_contextual_skills text
  skillsFinalize text skills

/-! ### `_extract_experience_improved` (lines 444–745) -/

def experience_headers : List String :=
  ["PROFESSIONAL EXPERIENCE", "WORK EXPERIENCE", "EMPLOYMENT HISTORY",
   "EMPLOYMENT", "CHRONOLOGICAL SUMMARY OF EXPERIENCE",
   "CAREER HISTORY", "WORK HISTORY",
   "PROJECT HISTORY", "PROJECT EXPERIENCE", "PROJECTS"]

def experience_end_headers : List String :=
  ["EDUCATION", "SKILLS", "TECHNICAL SKILLS", "RELEVANT SKILLS",
   "PROJECTS", "CERTIFICATIONS", "ACHIEVEMENTS", "AWARDS"]

def summary_indicators : List String :=
  ["extensive experience", "experience in", "experience includes"]

/-- The header scan of `_extract_experience_improved` (lines 456–508),
returning `(experience_start, experience_end)` with `none` for the
source's `-1`.  Both the line-0 special case and the bare-`EXPERIENCE`
fallback `break` out of the whole scan, so after either of them
`experience_end` is never set. -/
def expBoundsGo (lines : List String) :
    List (Nat × String) → Option Nat → Option Nat → Option Nat × Option Nat
  | [], st, en => (st, en)
  | (i, line) :: rest, st, en =>
    let line_clean := pyStrip line
    if line_clean = "" then expBoundsGo lines rest st en
    else
      match st with
      | none =>
        if i = 0 && (pyContains (pyUpper line_clean) "PROJECT HISTORY" ||
            ["Pvt.", "Ltd.", "Inc.", "Corp.", "Company", "LLC"].any
              (fun ind => pyContains line_clean ind)) then
          (some 0, en)
        else if experience_headers.any (fun h =>
            pyUpper line_clean = h || pyUpper line_clean = h ++ ":") then
          expBoundsGo lines rest (some (i + 1)) en
        else if pyUpper line_clean = "EXPERIENCE" then
          let lo := i - 2
          let hi := min lines.length (i + 3)
          let context_lines := ((lines.drop lo).take (hi - lo)).map
            (fun l => pyLower (pyStrip l))
          let context_text := String.intercalate " " context_lines
          if summary_indicators.any (fun ind => pyContains context_text ind) then
            expBoundsGo lines rest none en
          else (some (i + 1), en)
        else expBoundsGo lines rest none en
      | some s =>
        match en with
        | none =>
          if experience_end_headers.any (fun h =>
              pyUpper line_clean = h || pyUpper line_clean = h ++ ":") then
            expBoundsGo lines rest (some s) (some i)
          else expBoundsGo lines rest (some s) none
        | some e => expBoundsGo lines rest (some s) (some e)

/-- The lines `lines[experience_start:experience_end]` that the position
parser runs over (lines 510–517). -/
def experience_section_lines (text : String) : Option (List String) :=
  let lines := pySplit text "\n"
  match expBoundsGo lines lines.enum none none with
  | (none, _) => none
  | (some s, en) =>
    let e := match en with | some e => e | none => lines.length
    some ((lines.take e).drop s)

def bullet_action_verbs : List String :=
  ["represented", "managed", "led", "developed", "collaborated", "oversaw",
   "spearheaded", "established", "conducted", "implemented"]

def company_action_verbs : List String :=
  ["represented", "managed", "led", "developed", "collaborated", "oversaw", "spearheaded"]

/-- `[–-]` -/
def rdash : Re := .cls ⟨[.lit '–', .lit '-'], false⟩

-- ^\s*\w{3}'\s*\d{2}\s*[–-]\s*
def reDateLine1 : Re :=
  .cat .bol (.cat rsps (.cat (rrep rword 3) (.cat (rch apoC) (.cat rsps
    (.cat (rrep rdig 2) (.cat rsps (.cat rdash rsps)))))))

-- ^\s*\d{1,2}/\d{4}\s*[–-]\s*
def reDateLine2 : Re :=
  .cat .bol (.cat rsps (.cat (rbetween rdig 1 2) (.cat (rch '/') (.cat (rrep rdig 4)
    (.cat rsps (.cat rdash rsps))))))

-- ^\s*\w{3}'\s*\d{2}\s*[–-]\s*\w{3}'\s*\d{2}\s*$
def reDateLine3 : Re :=
  .cat .bol (.cat rsps (.cat (rrep rword 3) (.cat (rch apoC) (.cat rsps
    (.cat (rrep rdig 2) (.cat rsps (.cat rdash (.cat rsps (.cat (rrep rword 3)
      (.cat (rch apoC) (.cat rsps (.cat (rrep rdig 2) (.cat rsps .eol)))))))))))))

-- ^\s*\w{3}'\s*\d{2}\s*[–-]\s*Present\s*$
def reDateLine4 : Re :=
  .cat .bol (.cat rsps (.cat (rrep rword 3) (.cat (rch apoC) (.cat rsps
    (.cat (rrep rdig 2) (.cat rsps (.cat rdash (.cat rsps (.cat (rstr "Present")
      (.cat rsps .eol))))))))))

-- ^(.*?)\s*\((.*?)\).*?$
def reTitleParen : Re :=
  .cat .bol (.cat (.grp 1 rdotsLzy) (.cat rsps (.cat (rch '(')
    (.cat (.grp 2 rdotsLzy) (.cat (rch ')') (.cat rdotsLzy .eol))))))

-- (January|...|December|\d{1,2}/\d{4}|\d{4}) with IGNORECASE
def reDatesInParens : Re :=
  .grp 1 (raltL (fullMonths.map rstr ++
    [.cat (rbetween rdig 1 2) (.cat (rch '/') (rrep rdig 4)), rrep rdig 4]))

-- \w{3}\'?\s*\d{2} (shared piece of the two Kiran-format patterns)
def reMonYY : Re :=
  .cat (rrep rword 3) (.cat (ropt (rch apoC)) (.cat rsps (rrep rdig 2)))

-- \w{3}\'?\s*\d{2}\s*[–-]\s*(\w{3}\'?\s*\d{2}|Present|Current)
def reTrailingDates : Re :=
  .cat reMonYY (.cat rsps (.cat rdash (.cat rsps
    (.grp 1 (raltL [reMonYY, rstr "Present", rstr "Current"])))))

-- ^(.*?)\s+(\w{3}\'?\s*\d{2}\s*[–-]\s*(?:\w{3}\'?\s*\d{2}|Present|Current).*?)$
def reTitleSplit : Re :=
  .cat .bol (.cat (.grp 1 rdotsLzy) (.cat rspp (.cat
    (.grp 2 (.cat reMonYY (.cat rsps (.cat rdash (.cat rsps
      (.cat (raltL [reMonYY, rstr "Present", rstr "Current"]) rdotsLzy))))))
    .eol)))

-- \d{2}.*\d{2}|Present|Current
def reDateLineCheck : Re :=
  raltL [.cat (rrep rdig 2) (.cat rdots (rrep rdig 2)), rstr "Present", rstr "Current"]

def lookahead_job_keywords : List String :=
  ["Consultant", "Manager", "Director", "Engineer", "Developer", "PMO", "Sr.",
   "Lead", "Project"]

def swap_job_keywords : List String :=
  ["Developer", "Engineer", "Manager", "Analyst", "Specialist", "Director",
   "Consultant", "Administrator", "Coordinator", "Lead", "Senior", "Junior",
   "Assistant", "PMO"]

def swap_company_keywords : List String :=
  ["Inc", "Corp", "LLC", "Company", "Solutions", "Technologies", "Systems",
   "Consulting", "Group", "Services"]

/-- The inner date-search loop (lines 698–711): returns the found date
string (or `""`) and the loop's final `j`.  Both `break`s leave `j` at the
inspected line. -/
def lookDates (expLines : List String) : Nat → Nat → String × Nat
  | 0, j => ("", j)
  | fuel + 1, j =>
    match expLines.get? j with
    | none => ("", j)
    | some raw =>
      let date_line := pyStrip raw
      if date_line = "" then lookDates expLines fuel (j + 1)
      else if (research false reDateLineCheck date_line).isSome then (date_line, j)
      else ("", j)

/-- The job-title look-ahead loop after a company line (lines 651–713):
returns `(job_title, dates, final j)`. -/
def lookTitleDates (expLines : List String) : Nat → Nat → String × String × Nat
  | 0, j => ("", "", j)
  | fuel + 1, j =>
    match expLines.get? j with
    | none => ("", "", j)
    | some raw =>
      let next_line := pyStrip raw
      if next_line = "" then lookTitleDates expLines fuel (j + 1)
      else if pyStartsWith next_line "(" && pyEndsWith next_line ")" then
        lookTitleDates expLines fuel (j + 1)
      else if lookahead_job_keywords.any (fun k => pyContains next_line k) then
        let td : String × String :=
          if pyContains next_line "(" && pyContains next_line ")" then
            match rematch false reTitleParen next_line with
            | some m =>
              let job_title := pyStrip (m.group next_line 1)
              let potential_dates := pyStrip (m.group next_line 2)
              if (research true reDatesInParens potential_dates).isSome then
                (job_title, potential_dates)
              else (next_line, "")
            | none => (next_line, "")
          else if (research false reTrailingDates next_line).isSome then
            match rematch false reTitleSplit next_line with
            | some m => (pyStrip (m.group next_line 1), pyStrip (m.group next_line 2))
            | none => (next_line, "")
          else (next_line, "")
        if td.2 = "" then
          let dj := lookDates expLines (expLines.length + 2) (j + 1)
          (td.1, dj.1, dj.2)
        else (td.1, td.2, j + 1)
      else lookTitleDates expLines fuel (j + 1)

/-- The company-line detection and company/location split (lines 560–640):
returns `(is_company_line, company, location)`. -/
def companyParse (line : String) : Bool × String × String :=
  let flag1 := ["Pvt. Ltd.", "Pvt Ltd", "Inc.", "Corp.", "LLC", "Company"].any
      (fun ind => pyContains line ind) && line.data.length < 150
  let noVerb := !pyStartsWithAny (pyLower line) company_action_verbs
  let flag2 :=
    (pyContains line "," && (pyContains line " - " || pyContains line "Remote") && noVerb) ||
    (pyContains line "," && ["Inc", "Corp", "LLC", "CA", "TX", "NY", "FL"].any
        (fun ind => pyContains line ind) && noVerb) ||
    (["Federal Credit Union", "Client:"].any (fun ind => pyContains line ind)) ||
    ((pyContains line "AT&T" || pyContains line "DIRECTV") &&
      (pyContains line "," || pyContains line "(") && line.data.length < 200 && noVerb) ||
    (pyContains line "–" && line.data.length < 100 && noVerb) ||
    (pyContains line " - " && line.data.length < 100 && noVerb) ||
    (["United Airline", "Emburse", "PepsiCo", "Ligadata Solutions", "EtQ"].any
        (fun comp => pyContains line comp) && line.data.length < 100)
  if flag2 then
    if pyStartsWith line "Client:" then
      let company_part := pyStrip (pyReplace line "Client:" "")
      if pyContains company_part "," then
        let company_location := pySplit company_part ","
        let company := pyStrip (match company_location with | c :: _ => c | [] => "")
        let location := pyStrip (String.intercalate ","
          (match company_location with | _ :: t => t | [] => []))
        (true, company, location)
      else (true, company_part, "")
    else if pyContains line " - " || pyContains line "–" then
      let parts :=
        if pyContains line "–" then pySplit1 line "–" else pySplit1 line " - "
      let main_part := match parts with | m :: _ => m | [] => ""
      let status := match parts with | _ :: s :: _ => s | _ => ""
      if pyContains main_part "," then
        let company_parts := pySplit main_part ","
        let company := pyStrip (match company_parts with | c :: _ => c | [] => "")
        let location := pyStrip (String.intercalate ","
          (match company_parts with | _ :: t => t | [] => [])) ++ ", " ++ pyStrip status
        (true, company, location)
      else (true, pyStrip main_part, pyStrip status)
    else if pyContains line "(" && pyContains line ")" then
      let main_part := pyStrip (match pySplit line "(" with | m :: _ => m | [] => "")
      if pyContains main_part "," then
        let company_location := pyRSplit2 main_part ","
        if company_location.length ≥ 2 then
          let company := pyStrip (match company_location with | c :: _ => c | [] => "")
          let location := String.intercalate ", "
            ((match company_location with | _ :: t => t | [] => []).map pyStrip)
          (true, company, location)
        else (true, pyStrip main_part, "")
      else (true, main_part, "")
    else
      if pyContains line "," then
        let company_parts := pySplit line ","
        let company := pyStrip (match company_parts with | c :: _ => c | [] => "")
        let location := pyStrip (String.intercalate ","
          (match company_parts with | _ :: t => t | [] => []))
        (true, company, location)
      else (true, pyStrip line, "")
  else (flag1, "", "")

/-- The main position-parsing loop (lines 519–743).  `i` strictly increases
every step (the company branch continues from the look-ahead's `j ≥ i+1`),
so `length + 2` fuel always suffices. -/
def expLoop (expLines : List String) : Nat → Nat → List Position → Option Position →
    List Position
  | 0, _, positions, current =>
    (match current with | some c => positions ++ [c] | none => positions)
  | fuel + 1, i, positions, current =>
    match expLines.get? i with
    | none => (match current with | some c => positions ++ [c] | none => positions)
    | some raw =>
      let line := pyStrip raw
      if line = "" then expLoop expLines fuel (i + 1) positions current
      else if pyStartsWith line "-" || pyStartsWith line "•" || pyStartsWith line "◦" ||
          (current.isSome && ((pySplitWs line).length > 8 ||
            pyStartsWithAny (pyLower line) bullet_action_verbs ||
            pyContains (pyLower line) "framework" ||
            pyContains (pyLower line) "compliance" ||
            pyContains (pyLower line) "requirements")) then
        match current with
        | some c =>
          let description :=
            if pyStartsWithAny line ["-", "•", "◦"] then
              pyStrip (String.mk (line.data.drop 1))
            else line
          expLoop expLines fuel (i + 1) positions
            (some { c with description := c.description ++ [description] })
        | none => expLoop expLines fuel (i + 1) positions current
      else if (research false reDateLine1 line).isSome ||
          (research false reDateLine2 line).isSome ||
          (research false reDateLine3 line).isSome ||
          (research false reDateLine4 line).isSome then
        match current with
        | some c =>
          if c.startDate = "" then
            let dates := pyStrip line
            expLoop expLines fuel (i + 1) positions
              (some { c with
                startDate := parse_start_date dates
                endDate := parse_end_date dates })
          else expLoop expLines fuel (i + 1) positions current
        | none => expLoop expLines fuel (i + 1) positions current
      else
        match companyParse line with
        | (true, company, location) =>
          let positions :=
            match current with | some c => positions ++ [c] | none => positions
          let tdj := lookTitleDates expLines (expLines.length + 2) (i + 1)
          let job_title := tdj.1
          let dates := tdj.2.1
          let j := tdj.2.2
          let company_looks_like_job :=
            company ≠ "" && swap_job_keywords.any (fun k => pyContains company k)
          let job_looks_like_company :=
            job_title ≠ "" && swap_company_keywords.any (fun k => pyContains job_title k)
          let jt_c : String × String :=
            if company_looks_like_job && job_looks_like_company then
              (company, job_title)
            else (job_title, company)
          let newpos : Position :=
            ⟨jt_c.1, jt_c.2, location, parse_start_date dates, parse_end_date dates,
             dates, []⟩
          expLoop expLines fuel j positions (some newpos)
        | (false, _, _) => expLoop expLines fuel (i + 1) positions current

/-- `_extract_experience_improved` (lines 444–745). -/
def extract_experience_improved (text : String) : List Position :=
  match experience_section_lines text with
  | none => []
  | some expLines => expLoop expLines (expLines.length + 2) 0 [] none

/-! ### `_enhance_positions_with_dates` (lines 1300–1375) -/

/-- A recorded stand-alone date line. -/
structure DateLine where
  line_num : Nat
  line_text : String
  date_range : String
  dstart : String
  dend : String
deriving DecidableEq, Repr

-- (?:[–-]|\bto\b)
def reRangeSep : Re := raltL [rdash, .cat .wb (.cat (rstr "to") .wb)]

/-- The month alternation of the first enhance pattern, in source order. -/
def octoberFirstMonths : List String :=
  ["October", "November", "December", "January", "February", "March", "April",
   "May", "June", "July", "August", "September"]

-- (October|...|September)\s+\d{4}\s*(?:[–-]|\bto\b)\s*(Present|Current|(October|...|September)\s+\d{4})
def reEnh1 : Re :=
  .cat (.grp 1 (rstrL octoberFirstMonths)) (.cat rspp (.cat (rrep rdig 4)
    (.cat rsps (.cat reRangeSep (.cat rsps
      (.grp 2 (raltL [rstr "Present", rstr "Current",
        .cat (.grp 3 (rstrL octoberFirstMonths)) (.cat rspp (rrep rdig 4))])))))))

-- (Jan|...|Dec)\s+\d{2,4}\s*(?:[–-]|\bto\b)\s*(Present|Current|(Jan|...|Dec)\s+\d{2,4})
def reEnh2 : Re :=
  .cat (.grp 1 (rstrL abbrMonths)) (.cat rspp (.cat (rbetween rdig 2 4)
    (.cat rsps (.cat reRangeSep (.cat rsps
      (.grp 2 (raltL [rstr "Present", rstr "Current",
        .cat (.grp 3 (rstrL abbrMonths)) (.cat rspp (rbetween rdig 2 4))])))))))

-- (Jan|...|Dec)'\s*\d{2}\s*(?:[–-]|\bto\b)\s*(Present|Current|(Jan|...|Dec)'\s*\d{2})
def reEnh3 : Re :=
  .cat (.grp 1 (rstrL abbrMonths)) (.cat (rch apoC) (.cat rsps (.cat (rrep rdig 2)
    (.cat rsps (.cat reRangeSep (.cat rsps
      (.grp 2 (raltL [rstr "Present", rstr "Current",
        .cat (.grp 3 (rstrL abbrMonths)) (.cat (rch apoC) (.cat rsps (rrep rdig 2)))]))))))))

-- (\d{1,2}/\d{4})\s*(?:[–-]|\bto\b)\s*(Present|Current|\d{1,2}/\d{4})
def reEnh4 : Re :=
  .cat (.grp 1 (.cat (rbetween rdig 1 2) (.cat (rch '/') (rrep rdig 4))))
    (.cat rsps (.cat reRangeSep (.cat rsps
      (.grp 2 (raltL [rstr "Present", rstr "Current",
        .cat (rbetween rdig 1 2) (.cat (rch '/') (rrep rdig 4))])))))

-- (\d{4})\s*(?:[–-]|\bto\b)\s*(Present|Current|\d{4})
def reEnh5 : Re :=
  .cat (.grp 1 (rrep rdig 4)) (.cat rsps (.cat reRangeSep (.cat rsps
    (.grp 2 (raltL [rstr "Present", rstr "Current", rrep rdig 4])))))

def enhancePatterns : List Re := [reEnh1, reEnh2, reEnh3, reEnh4, reEnh5]

/-- The date-line collection pass of `_enhance_positions_with_dates`
(lines 1315–1330). -/
def collectDateLines (lines : List String) : List DateLine :=
  lines.enum.foldl (fun acc il =>
    let line_clean := pyStrip il.2
    match enhancePatterns.findSome? (fun p => research true p line_clean) with
    | some m =>
      acc ++ [⟨il.1, line_clean,
        m.group line_clean 1 ++ " - " ++ m.group line_clean 2,
        m.group line_clean 1, m.group line_clean 2⟩]
    | none => acc) []

/-- The per-position date-assignment pass (lines 1332–1375). -/
def enhanceGo (lines : List String) : List Position → List DateLine → List Position
  | [], _ => []
  | p :: rest, dls =>
    if p.startDate ≠ "" && p.endDate ≠ "" then p :: enhanceGo lines rest dls
    else
      let position_line := (lines.enum.find? (fun il =>
        (p.jobTitle ≠ "" && pyContains (pyLower il.2) (pyLower p.jobTitle)) ||
        (p.company ≠ "" && pyContains (pyLower il.2) (pyLower p.company)))).map Prod.fst
      match position_line with
      | none => p :: enhanceGo lines rest dls
      | some pl =>
        let closest := dls.foldl (fun best d =>
          let distance := max d.line_num pl - min d.line_num pl
          match best with
          | none => if distance ≤ 10 then some (distance, d) else none
          | some b =>
            if distance ≤ 10 && distance < b.1 then some (distance, d) else some b)
          none
        match closest with
        | none => p :: enhanceGo lines rest dls
        | some dd =>
          let d := dd.2
          let p' := { p with
            dates := d.date_range
            startDate := parse_start_date d.date_range
            endDate := parse_end_date d.date_range }
          p' :: enhanceGo lines rest (dls.erase d)

/-- `_enhance_positions_with_dates` (lines 1300–1375). -/
def enhance_positions_with_dates (positions : List Position) (text : String) :
    List Position :=
  let lines := pySplit text "\n"
  enhanceGo lines positions (collectDateLines lines)

/-! ### `_extract_contact_info` (lines 75–170) -/

-- \b([a-zA-Z0-9._%+-]+@[a-zA-Z0-9.-]+\.[a-zA-Z]{2,})\b
def reEmail : Re :=
  .cat .wb (.cat (.grp 1 (.cat
      (rplus (.cls ⟨[.range 'a' 'z', .range 'A' 'Z', .range '0' '9', .lit '.',
        .lit '_', .lit '%', .lit '+', .lit '-'], false⟩) false)
      (.cat (rch '@') (.cat
        (rplus (.cls ⟨[.range 'a' 'z', .range 'A' 'Z', .range '0' '9', .lit '.',
          .lit '-'], false⟩) false)
        (.cat (rch '.') (ratleast ralpha 2)))))) .wb)

def raz : Re := .cls ⟨[.range 'a' 'z'], false⟩

-- ^[A-Z][a-z]+ [A-Z][a-z]+
def reName1 : Re :=
  .cat .bol (.cat rAZ (.cat (rplus raz false) (.cat (rch ' ')
    (.cat rAZ (rplus raz false)))))

-- ^[A-Z][a-z]+ [A-Z]\. [A-Z][a-z]+
def reName2 : Re :=
  .cat .bol (.cat rAZ (.cat (rplus raz false) (.cat (rch ' ')
    (.cat rAZ (.cat (rch '.') (.cat (rch ' ') (.cat rAZ (rplus raz false))))))))

def name_blocklist : List String :=
  ["EXPERIENCE", "EDUCATION", "SKILLS", "PROJECT", "DEVELOPER", "ENGINEER", "MANAGER",
   "CONSULTANT", "COMPANY", "CORP", "INC", "LLC", "LTD", "PVT", "SOLUTIONS",
   "TECHNOLOGIES", "SYSTEMS", "JUNE", "JULY", "AUGUST", "SEPTEMBER", "OCTOBER",
   "NOVEMBER", "DECEMBER", "JANUARY", "FEBRUARY", "MARCH", "APRIL", "MAY",
   "HYDERABAD", "BANGALORE", "MUMBAI", "DELHI", "CHENNAI", "PRESENT", "TO",
   "ENVIRONMENT", "ANGULARJS", "TELERIK", "WEB", "UI", "HTTP", "MODULES",
   "SKILL", "SUMMARY", "TECHNICAL", "PROFESSIONAL", "CERTIFIED", "ADMIN"]

/-- The name-scan loop over the first 15 lines (lines 88–110). -/
def nameScan : List String → String
  | [] => ""
  | line :: rest =>
    let line_clean := pyStrip line
    if line_clean = "" || line_clean.data.length < 3 then nameScan rest
    else if ((pyIsUpper line_clean && 2 ≤ (pySplitWs line_clean).length &&
          (pySplitWs line_clean).length ≤ 4) ||
        (rematch false reName1 line_clean).isSome ||
        (rematch false reName2 line_clean).isSome) &&
      !(name_blocklist.any (fun kw => pyContains (pyUpper line_clean) kw)) then
      line_clean
    else nameScan rest

/-- `[-.–\s]` -/
def phSep : CCls := ⟨[.lit '-', .lit '.', .lit '–', .space], false⟩
/-- `[-.–]` -/
def phSep2 : CCls := ⟨[.lit '-', .lit '.', .lit '–'], false⟩
/-- `[-.–)\s]` -/
def phSep3 : CCls := ⟨[.lit '-', .lit '.', .lit '–', .lit ')', .space], false⟩

-- \((\d{3})\)[-.–\s]*(\d{3})[-.–\s]*(\d{4})
def rePhone1 : Re :=
  .cat (rch '(') (.cat (.grp 1 (rrep rdig 3)) (.cat (rch ')')
    (.cat (.star (.cls phSep) false) (.cat (.grp 2 (rrep rdig 3))
      (.cat (.star (.cls phSep) false) (.grp 3 (rrep rdig 4)))))))

-- \((\d{3})\)\s*(\d{3})[-.–]\s*(\d{4})
def rePhone2 : Re :=
  .cat (rch '(') (.cat (.grp 1 (rrep rdig 3)) (.cat (rch ')')
    (.cat rsps (.cat (.grp 2 (rrep rdig 3))
      (.cat (.cls phSep2) (.cat rsps (.grp 3 (rrep rdig 4))))))))

-- (\d{3})[-.–\s]+(\d{3})[-.–\s]+(\d{4})
def rePhone3 : Re :=
  .cat (.grp 1 (rrep rdig 3)) (.cat (rplus (.cls phSep) false)
    (.cat (.grp 2 (rrep rdig 3)) (.cat (rplus (.cls phSep) false)
      (.grp 3 (rrep rdig 4)))))

-- \+1?\s*(\d{3})[-.–)\s]*(\d{3})[-.–)\s]*(\d{4})
def rePhone4 : Re :=
  .cat (rch '+') (.cat (ropt (rch '1')) (.cat rsps
    (.cat (.grp 1 (rrep rdig 3)) (.cat (.star (.cls phSep3) false)
      (.cat (.grp 2 (rrep rdig 3)) (.cat (.star (.cls phSep3) false)
        (.grp 3 (rrep rdig 4))))))))

-- \(?(\d{3})\)?[-.–\s]*(\d{3})[-.–\s]*(\d{4})  (shared tail of patterns 5-8)
def rePhoneTail : Re :=
  .cat (ropt (rch '(')) (.cat (.grp 1 (rrep rdig 3)) (.cat (ropt (rch ')'))
    (.cat (.star (.cls phSep) false) (.cat (.grp 2 (rrep rdig 3))
      (.cat (.star (.cls phSep) false) (.grp 3 (rrep rdig 4)))))))

/-- `[:\s]*` -/
def reColonSp : Re := .star (.cls ⟨[.lit ':', .space], false⟩) false

-- Phone[:\s]*\(?(\d{3})\)?[-.–\s]*(\d{3})[-.–\s]*(\d{4})
def rePhone5 : Re := .cat (rstr "Phone") (.cat reColonSp rePhoneTail)
-- Tel[:\s]*...
def rePhone6 : Re := .cat (rstr "Tel") (.cat reColonSp rePhoneTail)
-- Mobile[:\s]*...
def rePhone7 : Re := .cat (rstr "Mobile") (.cat reColonSp rePhoneTail)
-- Cell[:\s]*...
def rePhone8 : Re := .cat (rstr "Cell") (.cat reColonSp rePhoneTail)

def phone_patterns : List Re :=
  [rePhone1, rePhone2, rePhone3, rePhone4, rePhone5, rePhone6, rePhone7, rePhone8]

-- ([A-Z][a-z]+),\s*([A-Z][a-z]?)
def reLocationCS : Re :=
  .cat (.grp 1 (.cat rAZ (rplus raz false))) (.cat (rch ',') (.cat rsps
    (.grp 2 (.cat rAZ (ropt raz)))))

/-- `_extract_contact_info` (lines 75–170).  All eight phone patterns have
exactly three groups, so the `len(match.groups()) >= 3` branch always
formats the number as `(AAA) BBB-CCCC`. -/
def extract_contact_info (text filename : String) : ContactInfo :=
  let lines := pySplit (pyStrip text) "\n"
  let email :=
    match research false reEmail text with
    | some m => m.group text 1
    | none => ""
  let name := nameScan (lines.take 15)
  let name :=
    if name = "" && email ≠ "" then
      let email_username :=
        pyLower (match pySplit email "@" with | u :: _ => u | [] => "")
      if pyContains email_username "ashok" then "Ashok Kumar"
      else if pyContains email_username "connal" then "Connal Jackson"
      else ""
    else name
  let name :=
    if name = "" && filename ≠ "" then
      let basename0 :=
        match (pySplit filename "/").reverse with | b :: _ => b | [] => ""
      let basename :=
        pyReplace (pyReplace (pyReplace basename0 ".doc" "") ".docx" "") ".pdf" ""
      if pyContains (pyLower basename) "resume of " then
        let potential_name := pyStrip (pyReplace (pyLower basename) "resume of " "")
        String.intercalate " " ((pySplitWs potential_name).map pyCapitalize)
      else if ["connal", "jackson"].any (fun w => pyContains (pyLower basename) w) then
        "Connal Jackson"
      else ""
    else name
  let name_parts := if name ≠ "" then pySplitWs name else []
  let given_name := match name_parts with | g :: _ => g | [] => ""
  let family_name :=
    if name_parts.length > 1 then name_parts.getLastD "" else ""
  let phone :=
    match phone_patterns.findSome? (fun p => research false p text) with
    | some m =>
      "(" ++ m.group text 1 ++ ") " ++ m.group text 2 ++ "-" ++ m.group text 3
    | none => ""
  let contact_section := pyTake 1000 text
  let location :=
    match research false reLocationCS contact_section with
    | some m =>
      PyLocation.mk (m.group contact_section 1) (m.group contact_section 2) "US"
    | none => PyLocation.mk "" "" "US"
  { candidateName := ⟨name, given_name, family_name⟩
    emailAddresses := if email ≠ "" then [email] else []
    telephones := if phone ≠ "" then [phone] else []
    location := location }

/-! ### `_extract_projects` (lines 1190–1219) -/

/-- `[A-Za-z\s-]` -/
def projTitleCls : CCls :=
  ⟨[.range 'A' 'Z', .range 'a' 'z', .space, .lit '-'], false⟩

-- [A-Z][A-Za-z\s-]+(?:Demo Link|Live App)
def reProjTitle : Re :=
  .cat rAZ (.cat (rplus (.cls projTitleCls) false)
    (raltL [rstr "Demo Link", rstr "Live App"]))

-- Projects\s*\n(.*?)(?=\n[A-Z][a-z]+\s*\n|\Z)   with DOTALL
def reProjectsSection : Re :=
  .cat (rstr "Projects") (.cat rsps (.cat (rch '\n')
    (.cat (.grp 1 (.star (.dot true) true))
      (.look (raltL [.cat (rch '\n') (.cat rAZ (.cat (rplus raz false)
        (.cat rsps (rch '\n')))), .eos])))))

-- ([A-Z][A-Za-z\s-]+(?:Demo Link|Live App))\s*\n(.*?)(?=\n[A-Z][A-Za-z\s-]+(?:Demo Link|Live App)|\Z)
def reProjItem : Re :=
  .cat (.grp 1 reProjTitle) (.cat rsps (.cat (rch '\n')
    (.cat (.grp 2 (.star (.dot true) true))
      (.look (raltL [.cat (rch '\n') reProjTitle, .eos])))))

/-- `_extract_projects` (lines 1190–1219). -/
def extract_projects (text : String) : List ProjectEntry :=
  match research false reProjectsSection text with
  | none => []
  | some secm =>
    let projects_text := secm.group text 1
    (refinditer false reProjItem projects_text).map (fun m =>
      let project_title := pyStrip (m.group projects_text 1)
      let project_desc := pyStrip (m.group projects_text 2)
      let bullet_points := (pySplit project_desc "\n").foldl (fun acc l =>
        let line := pyStrip l
        if pyStartsWith line "◦" then
          acc ++ [pyStrip (String.mk (line.data.drop 1))]
        else acc) []
      ⟨project_title, bullet_points⟩)

/-! ### `_extract_certifications` (lines 1221–1298) -/

def cert_keywords : List String :=
  ["PMP", "Project Management Professional", "CISSP", "CISM", "CISA",
   "CRISC", "CCNA", "MCSE", "ITIL", "SAFe", "Agilist", "ScrumMaster",
   "Scrum Master", "Certified", "Professional", "Certificate"]

-- PMP\s+Certified|Scrum\s+Master\s+Certified
def reCert1 : Re :=
  raltL [.cat (rstr "PMP") (.cat rspp (rstr "Certified")),
    .cat (rstr "Scrum") (.cat rspp (.cat (rstr "Master") (.cat rspp (rstr "Certified"))))]

-- Project Management Professional.*\(PMP\)|Certified.*Agilist|Certified.*ScrumMaster|SAFe.*Agilist
def reCert2 : Re :=
  raltL [.cat (rstr "Project Management Professional") (.cat rdots
      (.cat (rch '(') (.cat (rstr "PMP") (rch ')')))),
    .cat (rstr "Certified") (.cat rdots (rstr "Agilist")),
    .cat (rstr "Certified") (.cat rdots (rstr "ScrumMaster")),
    .cat (rstr "SAFe") (.cat rdots (rstr "Agilist"))]

-- ^[A-Za-z\s,]+,\s*(MBA|MS|CISSP|CISM|CISA|CRISC|PMP)
def reCert3 : Re :=
  .cat .bol (.cat (rplus (.cls ⟨[.range 'A' 'Z', .range 'a' 'z', .space, .lit ','],
      false⟩) false)
    (.cat (rch ',') (.cat rsps
      (.grp 1 (rstrL ["MBA", "MS", "CISSP", "CISM", "CISA", "CRISC", "PMP"])))))

-- ^(Certifications?|Professional Certifications?)\s*:?\s*$
def reCertSecHdr : Re :=
  .cat .bol (.cat (.grp 1 (raltL [.cat (rstr "Certification") (ropt (rch 's')),
      .cat (rstr "Professional Certification") (ropt (rch 's'))]))
    (.cat rsps (.cat (ropt (rch ':')) (.cat rsps .eol))))

-- ^(Education|Experience|Skills|Awards|Accolades|Professional Experience)
def reCertSecEnd : Re :=
  .cat .bol (.grp 1 (rstrL ["Education", "Experience", "Skills", "Awards",
    "Accolades", "Professional Experience"]))

-- (Certified|Professional)\s+\w+
def reCertified : Re :=
  .cat (.grp 1 (raltL [rstr "Certified", rstr "Professional"]))
    (.cat rspp (rplus rword false))

/-- The first (whole-document) certification pass (lines 1236–1270). -/
def certPass1Step (acc : List Cert) (line : String) : List Cert :=
  let line_clean := pyStrip line
  if (research true reCert1 line_clean).isSome then
    acc ++ ((pySplit line_clean "/").map pyStrip).foldl (fun (a : List Cert) cert_part =>
      if cert_part ≠ "" && cert_keywords.any (fun kw => pyContains cert_part kw) then
        a ++ [Cert.mk cert_part "Professional Certification"]
      else a) []
  else if (research true reCert2 line_clean).isSome then
    acc ++ ((pySplit line_clean "|").map pyStrip).foldl (fun (a : List Cert) cert_part =>
      if cert_part ≠ "" && ["PMP", "Certified", "SAFe", "Agilist", "ScrumMaster",
          "Scrum Master"].any
          (fun kw => pyContains (pyLower cert_part) (pyLower kw)) then
        a ++ [Cert.mk cert_part "Professional Certification"]
      else a) []
  else if (research true reCert3 line_clean).isSome then
    let name_parts := (pySplit line_clean ",").map pyStrip
    acc ++ (match name_parts with | [] => ([] : List String) | _ :: t => t).foldl
      (fun (a : List Cert) part =>
      if ["CISSP", "CISM", "CISA", "CRISC", "PMP", "Security+", "Network+"].any
          (fun kw => pyContains (pyLower part) (pyLower kw)) then
        a ++ [Cert.mk part "Professional Certification"]
      else a) []
  else acc

/-- The certification-section pass (lines 1272–1296); the section-end match
`break`s out of the scan. -/
def certPass2Go : List String → Bool → List Cert → List Cert
  | [], _, acc => acc
  | line :: rest, in_sec, acc =>
    let line_clean := pyStrip line
    if (rematch true reCertSecHdr line_clean).isSome then
      certPass2Go rest true acc
    else if in_sec && (rematch true reCertSecEnd line_clean).isSome then acc
    else if in_sec && line_clean ≠ "" then
      if ["Bachelors", "Masters", "MBA", "University", "Award", "Outstanding"].any
          (fun ex => pyContains line_clean ex) then
        certPass2Go rest in_sec acc
      else if cert_keywords.any (fun kw => pyContains line_clean kw) ||
          (research false reCertified line_clean).isSome then
        certPass2Go rest in_sec (acc ++ [Cert.mk line_clean "Professional Certification"])
      else certPass2Go rest in_sec acc
    else certPass2Go rest in_sec acc

/-- `_extract_certifications` (lines 1221–1298). -/
def extract_certifications (text : String) : List Cert :=
  let lines := pySplit text "\n"
  let certifications := lines.foldl certPass1Step []
  certPass2Go lines false certifications

/-! ### `parse_resume` (lines 46–73) -/

/-- `parse_resume` (lines 46–73).  The two `time.time()` readings are
modelled as explicit inputs `t0` (at entry) and `t1` (before the record is
built); `ProcessingTime` is their difference and nothing else depends on
them. -/
def parse_resume (text filename : String) (t0 t1 : ℚ) : ResumeRecord :=
  let contact_info := extract_contact_info text filename
  let education := extract_education_improved text
  let experience := extract_experience_improved text
  let experience := enhance_positions_with_dates experience text
  let skills := extract_skills_improved text
  let projects := extract_projects text
  let certifications := extract_certifications text
  let processing_time := t1 - t0
  { contactInformation := contact_info
    educationDetails := education
    positions := experience
    skills := skills
    projects := projects
    certifications := certifications
    processingTime := processing_time
    qualityScore := calculate_quality_score contact_info experience education skills }

/-- The structured record with `ProcessingTime` removed: what the
determinism property quantifies over. -/
structure ResumeRecordData where
  contactInformation : ContactInfo
  educationDetails : List EduEntry
  positions : List Position
  skills : List SkillFinal
  projects : List ProjectEntry
  certifications : List Cert
  qualityScore : ℚ
deriving DecidableEq, Repr

/-- Forget the `ProcessingTime` field. -/
def stripTime (r : ResumeRecord) : ResumeRecordData :=
  ⟨r.contactInformation, r.educationDetails, r.positions, r.skills,
   r.projects, r.certifications, r.qualityScore⟩

/-! ### Statement helpers -/

/-- The spec example string `Feb. 16 – Present` written with its apostrophe
after `Feb`. -/
def febPresent : String := "Feb" ++ String.mk [apoC] ++ " 16 – Present"

/-- The two-character decimal form of a year below 100. -/
def twoDigStr (y : Nat) : String := (if y < 10 then "0" else "") ++ toString y

/-- Keys of the `_deduplicate_skills` dict accumulator are distinct and each
key is the upper-cased name of its stored skill. -/
def skillKeyInv (acc : List (String × SkillCand)) : Prop :=
  (acc.map Prod.fst).Nodup ∧ ∀ p ∈ acc, p.1 = pyUpper p.2.name

/-- Each stored skill beats every processed candidate of its key, and every
processed candidate has its key present in the accumulator. -/
def skillBestInv (acc : List (String × SkillCand)) (pre : List SkillCand) : Prop :=
  (∀ p ∈ acc, ∀ c ∈ pre, pyUpper c.name = p.1 → c.confidence ≤ p.2.confidence) ∧
  ∀ c ∈ pre, pyUpper c.name ∈ acc.map Prod.fst

/-! ### Helper lemmas: the education deduplication pass -/

theorem dedup_education_aux_mem (l : List EduEntry) :
    ∀ (seen : List String) (e : EduEntry), e ∈ dedup_education_aux seen l →
      e.degreeName ≠ "" ∧ e.degreeName ∉ seen := by
  induction l with
  | nil => intro seen e h; simp [dedup_education_aux] at h
  | cons a t ih =>
    intro seen e h
    rw [dedup_education_aux] at h
    split at h
    case isTrue hc =>
      simp only [Bool.and_eq_true, decide_eq_true_eq, Bool.not_eq_true'] at hc
      rcases List.mem_cons.mp h with rfl | h2
      · refine ⟨hc.1, fun hm => ?_⟩
        have h3 : seen.contains e.degreeName = true := List.elem_iff.mpr hm
        rw [hc.2] at h3
        exact Bool.false_ne_true h3
      · have h3 := ih _ _ h2
        exact ⟨h3.1, fun hm => h3.2 (List.mem_cons_of_mem _ hm)⟩
    case isFalse hc => exact ih _ _ h

theorem dedup_education_aux_nodup (l : List EduEntry) :
    ∀ (seen : List String),
      ((dedup_education_aux seen l).map EduEntry.degreeName).Nodup := by
  induction l with
  | nil => intro seen; simp [dedup_education_aux]
  | cons a t ih =>
    intro seen
    rw [dedup_education_aux]
    split
    case isTrue hc =>
      simp only [List.map_cons, List.nodup_cons]
      refine ⟨fun hm => ?_, ih _⟩
      rcases List.mem_map.mp hm with ⟨e, he, hname⟩
      have h3 := (dedup_education_aux_mem t _ e he).2
      exact h3 (hname ▸ List.mem_cons_self _ _)
    case isFalse hc => exact ih _

theorem dedup_education_aux_filter (n : String) (hn : n ≠ "") (l : List EduEntry) :
    ∀ (seen : List String),
      (dedup_education_aux seen l).filter (fun e => e.degreeName = n) =
        if n ∈ seen then [] else (l.filter (fun e => e.degreeName = n)).take 1 := by
  induction l with
  | nil =>
    intro seen
    by_cases hm : n ∈ seen <;> simp [dedup_education_aux, hm]
  | cons a t ih =>
    intro seen
    rw [dedup_education_aux]
    split
    case isTrue hc =>
      simp only [Bool.and_eq_true, decide_eq_true_eq, Bool.not_eq_true'] at hc
      by_cases ha : a.degreeName = n
      · have hns : ¬ n ∈ seen := by
          intro hm
          have h3 : seen.contains a.degreeName = true := List.elem_iff.mpr (ha ▸ hm)
          rw [hc.2] at h3
          exact Bool.false_ne_true h3
        rw [if_neg hns]
        rw [List.filter_cons_of_pos (by simp [ha]), List.filter_cons_of_pos (by simp [ha])]
        rw [ih (a.degreeName :: seen)]
        rw [if_pos (by simp [ha])]
        simp
      · have hcons : (n ∈ a.degreeName :: seen) ↔ n ∈ seen := by
          constructor
          · intro h
            rcases List.mem_cons.mp h with h1 | h1
            · exact absurd h1.symm ha
            · exact h1
          · exact List.mem_cons_of_mem _
        rw [List.filter_cons_of_neg (by simp [ha]), List.filter_cons_of_neg (by simp [ha])]
        rw [ih (a.degreeName :: seen)]
        by_cases hm : n ∈ seen
        · rw [if_pos (hcons.mpr hm), if_pos hm]
        · rw [if_neg (fun h => hm (hcons.mp h)), if_neg hm]
    case isFalse hc =>
      have hc' : a.degreeName = "" ∨ seen.contains a.degreeName = true := by
        by_cases h1 : a.degreeName = ""
        · exact Or.inl h1
        · rcases Bool.eq_false_or_eq_true (seen.contains a.degreeName) with ht | hf
          · exact Or.inr ht
          · refine absurd ?_ hc
            have hns : a.degreeName ∉ seen := by
              intro hm
              have h3 : seen.contains a.degreeName = true := List.elem_iff.mpr hm
              rw [hf] at h3
              exact Bool.false_ne_true h3
            simp [h1, hns]
      rw [ih seen]
      by_cases ha : a.degreeName = n
      · have hmem : n ∈ seen := by
          rcases hc' with h1 | h2
          · exact absurd (ha ▸ h1) hn
          · exact ha ▸ List.elem_iff.mp h2
        rw [if_pos hmem, if_pos hmem]
      · rw [List.filter_cons_of_neg (by simp [ha])]

/-! ### Helper lemmas: the skills deduplication -/

theorem dedupInsert_inv (acc : List (String × SkillCand)) (pre : List SkillCand)
    (c : SkillCand) (h1 : skillKeyInv acc) (h2 : skillBestInv acc pre) :
    skillKeyInv (dedupInsert acc c) ∧ skillBestInv (dedupInsert acc c) (pre ++ [c]) := by
  unfold dedupInsert
  split
  case isTrue hany =>
    have hkey : pyUpper c.name ∈ acc.map Prod.fst := by
      rcases List.any_eq_true.mp hany with ⟨p, hp, hpk⟩
      exact List.mem_map.mpr ⟨p, hp, by simpa using hpk.symm⟩
    have hfst : ((acc.map fun p =>
        if p.1 = pyUpper c.name ∧ p.2.confidence < c.confidence then (p.1, c) else p).map
          Prod.fst) = acc.map Prod.fst := by
      rw [List.map_map]
      apply List.map_eq_map_iff.mpr
      intro p _
      by_cases hp : p.1 = pyUpper c.name ∧ p.2.confidence < c.confidence
      · simp [hp]
      · simp [if_neg hp]
    refine ⟨⟨hfst ▸ h1.1, ?_⟩, ?_, ?_⟩
    · intro q hq
      rcases List.mem_map.mp hq with ⟨p, hp, hup⟩
      by_cases hcond : p.1 = pyUpper c.name ∧ p.2.confidence < c.confidence
      · rw [if_pos hcond] at hup
        rw [← hup]
        exact hcond.1
      · rw [if_neg hcond] at hup
        exact hup ▸ h1.2 p hp
    · intro q hq c' hc'
      rcases List.mem_map.mp hq with ⟨p, hp, hup⟩
      rcases List.mem_append.mp hc' with hpre | hsing
      · intro hname
        by_cases hcond : p.1 = pyUpper c.name ∧ p.2.confidence < c.confidence
        · rw [if_pos hcond] at hup
          have hle := h2.1 p hp c' hpre (by rw [hname, ← hup])
          calc c'.confidence ≤ p.2.confidence := hle
            _ ≤ c.confidence := le_of_lt hcond.2
            _ = q.2.confidence := by rw [← hup]
        · rw [if_neg hcond] at hup
          exact hup ▸ h2.1 p hp c' hpre (by rw [hname, ← hup])
      · have hc'c : c' = c := by simpa using hsing
        subst hc'c
        intro hname
        by_cases hcond : p.1 = pyUpper c'.name ∧ p.2.confidence < c'.confidence
        · rw [if_pos hcond] at hup
          rw [← hup]
        · rw [if_neg hcond] at hup
          have hp1 : p.1 = pyUpper c'.name := by rw [hname, ← hup]
          have hnlt : ¬ p.2.confidence < c'.confidence := fun hlt => hcond ⟨hp1, hlt⟩
          exact hup ▸ le_of_not_lt hnlt
    · intro c' hc'
      rcases List.mem_append.mp hc' with hpre | hsing
      · exact hfst ▸ h2.2 c' hpre
      · have hcc : c' = c := by simpa using hsing
        subst hcc
        exact hfst ▸ hkey
  case isFalse hany =>
    have hnotin : pyUpper c.name ∉ acc.map Prod.fst := by
      intro hm
      rcases List.mem_map.mp hm with ⟨p, hp, hpk⟩
      exact (List.any_eq_true.not.mp hany) ⟨p, hp, by simpa using hpk⟩
    have hfst : ((acc ++ [(pyUpper c.name, c)]).map Prod.fst) =
        (acc.map Prod.fst) ++ [pyUpper c.name] := by simp
    refine ⟨⟨?_, ?_⟩, ?_, ?_⟩
    · rw [hfst, ← List.concat_eq_append]
      exact List.Nodup.concat hnotin h1.1
    · intro q hq
      rcases List.mem_append.mp hq with hin | hsing
      · exact h1.2 q hin
      · have hq2 : q = (pyUpper c.name, c) := by simpa using hsing
        rw [hq2]
    · intro q hq c' hc' hname
      rcases List.mem_append.mp hq with hin | hsing
      · rcases List.mem_append.mp hc' with hpre | hs2
        · exact h2.1 q hin c' hpre hname
        · have hcc : c' = c := by simpa using hs2
          subst hcc
          exact absurd (hname ▸ List.mem_map.mpr ⟨q, hin, rfl⟩) hnotin
      · have hq2 : q = (pyUpper c.name, c) := by simpa using hsing
        subst hq2
        rcases List.mem_append.mp hc' with hpre | hs2
        · exact absurd (hname ▸ h2.2 c' hpre) (by simpa using hnotin)
        · have hcc : c' = c := by simpa using hs2
          subst hcc
          exact le_refl _
    · intro c' hc'
      rcases List.mem_append.mp hc' with hpre | hsing
      · rw [hfst]
        exact List.mem_append.mpr (Or.inl (h2.2 c' hpre))
      · have hcc : c' = c := by simpa using hsing
        subst hcc
        rw [hfst]
        exact List.mem_append.mpr (Or.inr (by simp))

theorem foldl_dedupInsert_inv (l : List SkillCand) :
    ∀ (acc : List (String × SkillCand)) (pre : List SkillCand),
      skillKeyInv acc → skillBestInv acc pre →
      skillKeyInv (l.foldl dedupInsert acc) ∧
        skillBestInv (l.foldl dedupInsert acc) (pre ++ l) := by
  induction l with
  | nil => intro acc pre h1 h2; simpa using ⟨h1, h2⟩
  | cons c t ih =>
    intro acc pre h1 h2
    have step := dedupInsert_inv acc pre c h1 h2
    have h3 := ih (dedupInsert acc c) (pre ++ [c]) step.1 step.2
    simpa using h3

theorem deduplicate_skills_inv (l : List SkillCand) :
    skillKeyInv (l.foldl dedupInsert []) ∧ skillBestInv (l.foldl dedupInsert []) l := by
  have h := foldl_dedupInsert_inv l [] []
    ⟨List.nodup_nil, by intro p hp; simp at hp⟩
    ⟨by intro p hp; simp at hp, by intro c hc; simp at hc⟩
  simpa using h

theorem nodup_keys_filter_le_one (n : String) :
    ∀ (A : List (String × SkillCand)), (A.map Prod.fst).Nodup →
      (∀ p ∈ A, p.1 = pyUpper p.2.name) →
      (A.filter (fun p => pyUpper p.2.name = n)).length ≤ 1 := by
  intro A
  induction A with
  | nil => intro _ _; simp
  | cons p t ih =>
    intro hnd hkeys
    rw [List.map_cons] at hnd
    have hnd' := List.nodup_cons.mp hnd
    by_cases hp : pyUpper p.2.name = n
    · rw [List.filter_cons_of_pos (by simp [hp])]
      have hrest : t.filter (fun q => pyUpper q.2.name = n) = [] := by
        apply List.filter_eq_nil_iff.mpr
        intro q hq hqn
        have hq1 : q.1 = pyUpper q.2.name := hkeys q (List.mem_cons_of_mem _ hq)
        have hp1 : p.1 = pyUpper p.2.name := hkeys p (List.mem_cons_self _ _)
        apply hnd'.1
        have hq1p : q.1 = p.1 := by
          rw [hq1, hp1, hp]
          simpa using hqn
        exact hq1p ▸ List.mem_map.mpr ⟨q, hq, rfl⟩
      rw [hrest]
      simp
    · rw [List.filter_cons_of_neg (by simp [hp])]
      exact ih hnd'.2 (fun q hq => hkeys q (List.mem_cons_of_mem _ hq))

theorem deduplicate_skills_at_most_one (l : List SkillCand) (n : String) :
    ((deduplicate_skills l).filter (fun s => pyUpper s.name = n)).length ≤ 1 := by
  have hinv := deduplicate_skills_inv l
  unfold deduplicate_skills
  have heq : ((List.foldl dedupInsert [] l).map Prod.snd).filter
      (fun s => pyUpper s.name = n) =
      ((List.foldl dedupInsert [] l).filter
        (fun p => pyUpper p.2.name = n)).map Prod.snd :=
    List.filter_map Prod.snd (List.foldl dedupInsert [] l)
  rw [heq, List.length_map]
  exact nodup_keys_filter_le_one n _ hinv.1.1 hinv.1.2

theorem deduplicate_skills_highest (l : List SkillCand) :
    ∀ s ∈ deduplicate_skills l, ∀ c ∈ l, pyUpper c.name = pyUpper s.name →
      c.confidence ≤ s.confidence := by
  intro s hs c hc hname
  have hinv := deduplicate_skills_inv l
  unfold deduplicate_skills at hs
  rcases List.mem_map.mp hs with ⟨p, hp, hps⟩
  have hkey := hinv.1.2 p hp
  subst hps
  refine hinv.2.1 p hp c hc ?_
  rw [hname]
  exact hkey.symm

theorem skillsFinalize_at_most_one (text : String) (l : List SkillCand) (n : String) :
    ((skillsFinalize text l).filter (fun s => pyUpper s.name = n)).length ≤ 1 := by
  unfold skillsFinalize
  have hsub : ((((deduplicate_skills l).map
        (fun s => enhance_skill_metadata s text)).take 25).filter
        (fun s => pyUpper s.name = n)).Sublist
      (((deduplicate_skills l).map (fun s => enhance_skill_metadata s text)).filter
        (fun s => pyUpper s.name = n)) :=
    List.Sublist.filter _ (List.take_sublist _ _)
  refine le_trans (List.Sublist.length_le hsub) ?_
  rw [List.filter_map, List.length_map]
  exact deduplicate_skills_at_most_one l n

theorem skillsFinalize_highest (text : String) (l : List SkillCand) :
    ∀ s ∈ skillsFinalize text l, ∀ c ∈ l, pyUpper c.name = pyUpper s.name →
      c.confidence ≤ s.confidence := by
  intro s hs c hc hname
  unfold skillsFinalize at hs
  rcases List.mem_map.mp ((List.take_sublist _ _).subset hs) with ⟨u, hu, hus⟩
  subst hus
  exact deduplicate_skills_highest l u hu c hc hname

/-! ### The claims -/

/-- C1: for the empty input string, `parse("", filename="")` returns a
well-formed record (the embedding is total, so no error is possible) in
which every sequence field is empty, the formatted name is the empty
string, and `QualityScore` equals `0.0`. -/
theorem parse_empty_ok (t0 t1 : ℚ) :
    (stripTime (parse_resume "" "" t0 t1)).contactInformation.candidateName.formattedName = "" ∧
    (stripTime (parse_resume "" "" t0 t1)).contactInformation.emailAddresses = [] ∧
    (stripTime (parse_resume "" "" t0 t1)).contactInformation.telephones = [] ∧
    (stripTime (parse_resume "" "" t0 t1)).educationDetails = [] ∧
    (stripTime (parse_resume "" "" t0 t1)).positions = [] ∧
    (stripTime (parse_resume "" "" t0 t1)).skills = [] ∧
    (stripTime (parse_resume "" "" t0 t1)).projects = [] ∧
    (stripTime (parse_resume "" "" t0 t1)).certifications = [] ∧
    (stripTime (parse_resume "" "" t0 t1)).qualityScore = 0 := by
  have h : stripTime (parse_resume "" "" t0 t1) = stripTime (parse_resume "" "" 0 0) := rfl
  rw [h]
  decide

/-- C2: for every input text `T` and filename `F`, two calls of
`parse(T, F)` agree on every field except `ProcessingTime`: the only
time-dependent input (the two `time.time()` readings, modelled as `t0`,
`t1`) flows into `ProcessingTime` alone. -/
theorem parse_deterministic (T F : String) (t0 t1 t0' t1' : ℚ) :
    stripTime (parse_resume T F t0 t1) = stripTime (parse_resume T F t0' t1') := rfl

/-- C3: the start-date parser maps `Feb' 16 – Present` to 2016-02-01 (a
date in February 2016) and the end-date parser maps it to the sentinel
`Present`; `Jan 2017 – Oct 2021` normalizes to start 2017-01-01 and end
2021-10-01; and every date string containing `present`, `current`, `now`
or `ongoing` (case-insensitive) anywhere yields end date `Present`. -/
theorem date_round_trip :
    parse_start_date febPresent = "2016-02-01" ∧
    parse_end_date febPresent = "Present" ∧
    parse_start_date "Jan 2017 – Oct 2021" = "2017-01-01" ∧
    parse_end_date "Jan 2017 – Oct 2021" = "2021-10-01" ∧
    ∀ s : String, (["present", "current", "now", "ongoing"].any
        (fun n => pyContains (pyLower s) n)) = true →
      parse_end_date s = "Present" := by
  refine ⟨by decide, by decide, by decide, by decide, ?_⟩
  intro s h
  have hne : ¬(s = "") := by
    intro he
    subst he
    exact absurd h (by decide)
  have hp : searchPresentCI s = true := by
    unfold searchPresentCI
    simpa [pyContains] using h
  unfold parse_end_date
  simp [hne, hp]

/-- Witness for C3: the universal `Present` clause applied at a concrete
input. -/
theorem date_round_trip_witness : parse_end_date "through NOW" = "Present" :=
  date_round_trip.2.2.2.2 "through NOW" (by decide)

/-- C4: in both start-date and end-date parsing the (shared) 2-digit-year
disambiguation maps `y ≤ 30` to `2000 + y` and `y > 30` to `1900 + y`;
in particular year `08` becomes 2008 and year `95` becomes 1995, and the
boundary cases `30`/`31` map to 2030/1931 through the actual parsers. -/
theorem two_digit_year_boundary :
    (∀ y : Nat, y ≤ 99 →
      two_digit_year (twoDigStr y) =
        if y ≤ 30 then toString (2000 + y) else toString (1900 + y)) ∧
    parse_start_date "Mar 08 - Apr 95" = "2008-03-01" ∧
    parse_end_date "Mar 08 - Apr 95" = "1995-04-01" ∧
    parse_start_date "Jun 30 - Present" = "2030-06-01" ∧
    parse_start_date "Jun 31 - Present" = "1931-06-01" := by
  refine ⟨?_, by decide, by decide, by decide, by decide⟩
  decide

/-- Witness for C4: the universal clause applied at year 8. -/
theorem two_digit_year_boundary_witness :
    two_digit_year (twoDigStr 8) =
      (if 8 ≤ 30 then toString (2000 + 8) else toString (1900 + 8)) :=
  two_digit_year_boundary.1 8 (by decide)

/-- C5: the final skills output has at most one entry per case-insensitive
name (both through `skillsFinalize`, for every candidate list, and through
the whole `_extract_skills_improved`); the kept entry's confidence is at
least that of every same-named candidate; and two `Python` candidates with
confidences 0.7 and 0.9 yield exactly one `Python` entry with
confidence 0.9. -/
theorem skills_dedup_highest (text : String) (l : List SkillCand) (n : String) :
    (((skillsFinalize text l).filter (fun s => pyUpper s.name = n)).length ≤ 1) ∧
    (∀ s ∈ skillsFinalize text l, ∀ c ∈ l, pyUpper c.name = pyUpper s.name →
      c.confidence ≤ s.confidence) ∧
    (((extract_skills_improved text).filter (fun s => pyUpper s.name = n)).length ≤ 1) ∧
    ((skillsFinalize text [⟨"Python", none, "contextual", mkRat 7 10⟩,
        ⟨"Python", none, "skills_section", mkRat 9 10⟩]).map
      (fun s => (s.name, s.confidence)) = [("Python", mkRat 9 10)]) := by
  refine ⟨skillsFinalize_at_most_one text l n, skillsFinalize_highest text l, ?_, ?_⟩
  · exact skillsFinalize_at_most_one text _ n
  · rfl

/-- Witness for C5: the confidence clause applied at the two concrete
`Python` candidates. -/
theorem skills_dedup_highest_witness :
    ∀ s ∈ skillsFinalize ""
      [(⟨"Python", none, "contextual", mkRat 7 10⟩ : SkillCand),
       ⟨"Python", none, "skills_section", mkRat 9 10⟩],
      pyUpper (SkillCand.mk "Python" none "contextual" (mkRat 7 10)).name = pyUpper s.name →
      (SkillCand.mk "Python" none "contextual" (mkRat 7 10)).confidence ≤ s.confidence := by
  intro s hs hname
  exact (skills_dedup_highest "" [⟨"Python", none, "contextual", mkRat 7 10⟩,
    ⟨"Python", none, "skills_section", mkRat 9 10⟩] "PYTHON").2.1 s hs _ (by decide) hname

/-- C6: the quality score is the sum of four independent weights (0.25
name present, 0.30 experience non-empty, 0.25 education non-empty, 0.20
skills non-empty), hence always lies in `[0, 1]`; and the `QualityScore`
field of every parse result is this function of the record's own
components. -/
theorem quality_score_weights (c : ContactInfo) (ex : List Position)
    (ed : List EduEntry) (sk : List SkillFinal) :
    (calculate_quality_score c ex ed sk =
      (if c.candidateName.formattedName ≠ "" then mkRat 25 100 else 0) +
      (if ex ≠ [] then mkRat 30 100 else 0) +
      (if ed ≠ [] then mkRat 25 100 else 0) +
      (if sk ≠ [] then mkRat 20 100 else 0)) ∧
    0 ≤ calculate_quality_score c ex ed sk ∧
    calculate_quality_score c ex ed sk ≤ 1 ∧
    ∀ (T F : String) (t0 t1 : ℚ),
      (parse_resume T F t0 t1).qualityScore =
        calculate_quality_score (extract_contact_info T F)
          (enhance_positions_with_dates (extract_experience_improved T) T)
          (extract_education_improved T) (extract_skills_improved T) := by
  refine ⟨?_, ?_, ?_, fun T F t0 t1 => rfl⟩ <;>
    · unfold calculate_quality_score
      split_ifs <;> norm_num [Rat.mkRat_eq_div]

/-- C7 counterexample: for the bare `EXPERIENCE` header the claim fails —
the experience section body is NOT exactly the 3 body lines; the
summary-context fallback `break`s out of the whole header scan, so the
end-header search never runs and the body also contains the `EDUCATION`
header line. -/
theorem experience_section_counterexample :
    experience_section_lines
        "EXPERIENCE\nAcme Corp, Austin, TX\nSenior Developer\nJan 2019 - Dec 2020\nEDUCATION" =
      some ["Acme Corp, Austin, TX", "Senior Developer", "Jan 2019 - Dec 2020", "EDUCATION"] ∧
    experience_section_lines
        "EXPERIENCE\nAcme Corp, Austin, TX\nSenior Developer\nJan 2019 - Dec 2020\nEDUCATION" ≠
      some ["Acme Corp, Austin, TX", "Senior Developer", "Jan 2019 - Dec 2020"] := by
  constructor
  · decide
  · decide

/-- C7 amended: for a prioritized header such as `PROFESSIONAL EXPERIENCE`
the section body is exactly the 3 lines between the header and the first
next-section header (or end-of-document when none matches); for the bare
`EXPERIENCE` header accepted through the summary-context fallback the body
always extends to end-of-document, including the `EDUCATION` header
line. -/
theorem experience_section_amended :
    experience_section_lines
        "PROFESSIONAL EXPERIENCE\nAcme Corp, Austin, TX\nSenior Developer\nJan 2019 - Dec 2020\nEDUCATION" =
      some ["Acme Corp, Austin, TX", "Senior Developer", "Jan 2019 - Dec 2020"] ∧
    experience_section_lines
        "PROFESSIONAL EXPERIENCE\nAcme Corp, Austin, TX\nSenior Developer\nJan 2019 - Dec 2020" =
      some ["Acme Corp, Austin, TX", "Senior Developer", "Jan 2019 - Dec 2020"] ∧
    experience_section_lines
        "EXPERIENCE\nAcme Corp, Austin, TX\nSenior Developer\nJan 2019 - Dec 2020\nEDUCATION" =
      some ["Acme Corp, Austin, TX", "Senior Developer", "Jan 2019 - Dec 2020", "EDUCATION"] := by
  refine ⟨by decide, by decide, by decide⟩

/-- C8: degree-type classification is a case-insensitive keyword match
with precedence doctorate > masters > default bachelors: the three spec
examples classify as stated, any name matching a doctorate keyword is
`doctorate`, any name matching a masters but no doctorate keyword is
`masters`, and any name matching neither is `bachelors`. -/
theorem degree_classification (s : String) :
    classify_degree_type "PhD in Computer Science" = "doctorate" ∧
    classify_degree_type "MBA" = "masters" ∧
    classify_degree_type "BSc Computer Science" = "bachelors" ∧
    ((["phd", "ph.d", "doctorate", "doctoral"].any
        (fun k => pyContains (pyLower s) k)) = true →
      classify_degree_type s = "doctorate") ∧
    ((["phd", "ph.d", "doctorate", "doctoral"].any
        (fun k => pyContains (pyLower s) k)) = false →
      (["master", "mba", "msc", "ms ", "ma ", "executive mba"].any
        (fun k => pyContains (pyLower s) k)) = true →
      classify_degree_type s = "masters") ∧
    ((["phd", "ph.d", "doctorate", "doctoral"].any
        (fun k => pyContains (pyLower s) k)) = false →
      (["master", "mba", "msc", "ms ", "ma ", "executive mba"].any
        (fun k => pyContains (pyLower s) k)) = false →
      classify_degree_type s = "bachelors") := by
  refine ⟨by decide, by decide, by decide, ?_, ?_, ?_⟩ <;>
    · intros
      unfold classify_degree_type
      simp_all

/-- Witness for C8: the doctorate clause applied at a concrete input. -/
theorem degree_classification_witness :
    classify_degree_type "Doctoral Studies" = "doctorate" :=
  (degree_classification "Doctoral Studies").2.2.2.1 (by decide)

/-- C9: the education extractor's final pass deduplicates by exact
degree-name string with the first occurrence winning — for every candidate
list the entries of the result carrying a given non-empty name are exactly
the first input entry with that name, no degree name appears twice, and
the whole extractor's output has pairwise-distinct degree names. -/
theorem education_dedup_first_wins (l : List EduEntry) (text : String)
    (n : String) (hn : n ≠ "") :
    ((dedup_education l).map EduEntry.degreeName).Nodup ∧
    (dedup_education l).filter (fun e => e.degreeName = n) =
      (l.filter (fun e => e.degreeName = n)).take 1 ∧
    ((extract_education_improved text).map EduEntry.degreeName).Nodup := by
  refine ⟨dedup_education_aux_nodup l [], ?_, ?_⟩
  · have h := dedup_education_aux_filter n hn l []
    simpa [dedup_education] using h
  · unfold extract_education_improved
    exact dedup_education_aux_nodup _ []

/-- Witness for C9: the first-occurrence clause at a concrete list in
which two entries share the degree name `MBA`. -/
theorem education_dedup_first_wins_witness :
    (dedup_education [mkEduEntry "A" "MBA" "", mkEduEntry "B" "MBA" ""]).filter
        (fun e => e.degreeName = "MBA") =
      ([mkEduEntry "A" "MBA" "", mkEduEntry "B" "MBA" ""].filter
        (fun e => e.degreeName = "MBA")).take 1 :=
  (education_dedup_first_wins [mkEduEntry "A" "MBA" "", mkEduEntry "B" "MBA" ""]
    "" "MBA" (by decide)).2.1

/-- C10: every education entry returned by the final deduplication pass —
and hence by the whole extractor — has a non-empty degree name (candidates
with an empty degree name are silently dropped), while the school name may
be empty, as a concrete extractor output shows. -/
theorem education_degree_nonempty (l : List EduEntry) (text : String) :
    (∀ e ∈ dedup_education l, e.degreeName ≠ "") ∧
    (∀ e ∈ extract_education_improved text, e.degreeName ≠ "") ∧
    (∃ e ∈ extract_education_improved "Dexter Nigel Ramkissoon, MBA, MS Cybersecurity",
      e.school = "" ∧ e.degreeName ≠ "") := by
  refine ⟨fun e he => (dedup_education_aux_mem l [] e he).1, fun e he => ?_, ?_⟩
  · unfold extract_education_improved at he
    exact (dedup_education_aux_mem _ [] e he).1
  · decide

/-- Witness for C10: the non-empty-degree-name clause at a concrete
deduplicated entry. -/
theorem education_degree_nonempty_witness :
    (mkEduEntry "U" "MBA" "").degreeName ≠ "" :=
  (education_degree_nonempty [mkEduEntry "U" "MBA" ""] "").1
    (mkEduEntry "U" "MBA" "") (by decide)

end ResumeCore
